import Mathlib

/-!
Shallow embedding of the QR-code fraud-detection risk engine
(`Tools/upi.py`, `Tools/url_analysis.py`, `Tools/qr_analysis.py`,
`Tools/qrcode.py`) and proofs about it.

Strings are modelled as `List Char` over Unicode scalars; Python's
ASCII-dependent operations (`str.lower`, `\d`, `[a-zA-Z0-9]`, scheme
characters) are modelled over the ASCII range, matching CPython for all
ASCII input.  Python float arithmetic on the hand-tuned weights is
modelled exactly over `ℚ`.  External collaborators (HTTP redirect
expansion, cv2 pixel primitives) are inputs to the embedded functions.
-/

deriving instance DecidableEq for Except

/-- Python `int(...)` applied to a numeric value: truncation toward zero. -/
def pyInt (q : ℚ) : ℤ := if 0 ≤ q then q.floor else q.ceil

/-- `startsWithL l p` : the list `p` occurs at the start of `l`
(Python `str.startswith`). -/
def startsWithL : List Char → List Char → Bool
  | _, [] => true
  | [], _ :: _ => false
  | a :: l, b :: p => a == b && startsWithL l p

/-- `containsSubL l p` : the list `p` occurs contiguously inside `l`
(Python `in` on strings). -/
def containsSubL : List Char → List Char → Bool
  | [], pat => pat.isEmpty
  | a :: t, pat => startsWithL (a :: t) pat || containsSubL t pat

/-- `endsWithL l p` : the list `p` occurs at the end of `l`
(Python `str.endswith`). -/
def endsWithL (l pat : List Char) : Bool := startsWithL l.reverse pat.reverse

/-- Value of a run of ASCII decimal digits (Python `int(s, 10)` on digits). -/
def digitsToNat (l : List Char) : ℕ := l.foldl (fun n c => 10 * n + (c.toNat - 48)) 0

/-- Python `str.strip()` restricted to the ASCII whitespace characters it
removes: space, tab, newline, carriage return, vertical tab, form feed. -/
def pyStripChar (c : Char) : Bool :=
  c == ' ' || c == '\t' || c == '\n' || c == '\r' || c == '\x0b' || c == '\x0c'

/-- Python `str.strip()`. -/
def pyStrip (l : List Char) : List Char :=
  ((l.dropWhile pyStripChar).reverse.dropWhile pyStripChar).reverse

/-- Python `str.split(sep)` for a one-character separator: always at
least one (possibly empty) part, one additional part per separator
occurrence. -/
def pySplit (sep : Char) : List Char → List (List Char)
  | [] => [[]]
  | c :: t =>
      if c == sep then [] :: pySplit sep t
      else (c :: (pySplit sep t).headD []) :: (pySplit sep t).tail

namespace UPI

/-- The static suffix → (bank name, base risk) table of `VerifyUPI`. -/
def bankTable : List (String × String × ℤ) :=
  [ ("sbi", "State Bank of India", 5)
  , ("hdfc", "HDFC Bank", 5)
  , ("icici", "ICICI Bank", 5)
  , ("axisbank", "Axis Bank", 5)
  , ("barodampay", "Bank of Baroda", 5)
  , ("pnb", "Punjab National Bank", 5)
  , ("cnrb", "Canara Bank", 5)
  , ("kotak", "Kotak Mahindra Bank", 5)
  , ("kotak811", "Kotak Mahindra Bank (811)", 5)
  , ("centralbank", "Central Bank of India", 5)
  , ("federal", "Federal Bank", 5)
  , ("upi", "BHIM (NPCI)", 15)
  , ("ybl", "PhonePe – Yes Bank", 15)
  , ("ibl", "PhonePe – ICICI Bank", 15)
  , ("axl", "PhonePe – Axis Bank", 15)
  , ("okhdfcbank", "Google Pay – HDFC Bank", 10)
  , ("okicici", "Google Pay – ICICI Bank", 10)
  , ("oksbi", "Google Pay – SBI", 10)
  , ("okaxis", "Google Pay – Axis Bank", 10)
  , ("yes", "Yes Bank", 15)
  , ("yesbank", "Yes Bank", 15)
  , ("apl", "Amazon Pay", 12)
  , ("yapl", "Amazon Pay – Yes Bank", 12)
  , ("rapl", "Amazon Pay – ICICI Bank", 12)
  , ("paytm", "Paytm Payments Bank", 25)
  , ("ptyes", "Paytm – Yes Bank", 25)
  , ("ptaxis", "Paytm – Axis Bank", 25)
  , ("ptsbi", "Paytm – SBI", 25)
  , ("pthdfc", "Paytm – HDFC Bank", 25)
  , ("airtel", "Airtel Payments Bank", 25) ]

/-- Dictionary lookup `suffix in bank` / `bank[suffix]`. -/
def bankLookup (suffix : List Char) : Option (String × ℤ) :=
  (bankTable.find? (fun e => e.1.data == suffix)).map (fun e => (e.2.1, e.2.2))

/-- A character of the class `[a-zA-Z0-9.\-_]`. -/
def isUpiNameChar (c : Char) : Bool :=
  c.isAlphanum || c == '.' || c == '-' || c == '_'

/-- A character of the class `[a-zA-Z]`. -/
def isAsciiAlphaChar (c : Char) : Bool := c.isAlpha

/-- Full match of `[a-zA-Z0-9.\-_]{2,256}@[a-zA-Z]{2,64}` against `s`.
Neither character class contains `'@'`, so a match splits `s` at its
unique `'@'`. -/
def upiCoreMatch (s : List Char) : Bool :=
  match pySplit '@' s with
  | [pre, suf] =>
      decide (2 ≤ pre.length) && decide (pre.length ≤ 256) && pre.all isUpiNameChar &&
      decide (2 ≤ suf.length) && decide (suf.length ≤ 64) && suf.all isAsciiAlphaChar
  | _ => false

/-- Python `re.match(r'^[a-zA-Z0-9.\-_]{2,256}@[a-zA-Z]{2,64}$', s)` as a
boolean.  Python's `$` matches at the end of the string or just before a
newline that ends the string, hence the second disjunct. -/
def reMatchUpiPattern (s : List Char) : Bool :=
  upiCoreMatch s || (s.getLast? == some '\n' && upiCoreMatch s.dropLast)

/-- Python `re.match(r'^[a-zA-Z0-9]+$', s)` as a boolean (same `$` rule). -/
def reMatchAlnumPlus (s : List Char) : Bool :=
  (!s.isEmpty && s.all Char.isAlphanum) ||
    (s.getLast? == some '\n' && !s.dropLast.isEmpty && s.dropLast.all Char.isAlphanum)

/-- The dictionary returned by `VerifyUPI` on the two defined paths. -/
structure UPIReport where
  status : String
  upiid : List Char
  bank : String
  riskscore : ℤ
  risklevel : String
  deriving Repr, DecidableEq

/-- `Tools/upi.py` `VerifyUPI`.  When the regex does not match (or,
vacuously, when `'@'` is absent) the Python function falls off the end
and returns `None`, modelled as `none`.  The `riskscore = 25` reassignment
in the `riskscore == 0` branch happens after `normalized` is computed and
does not reach the returned dictionary. -/
def VerifyUPI (upiId : List Char) : Option UPIReport :=
  if reMatchUpiPattern upiId then
    if upiId.contains '@' then
      match bankLookup (((pySplit '@' upiId).getLastD []).map Char.toLower) with
      | some (bankName, risk) =>
          some ⟨"Success", upiId, bankName,
                pyInt ((((0 + risk : ℤ) : ℚ) - 5) / (25 - 5) * 100),
                if (0 + risk : ℤ) = 0 then "High"
                else if (0 + risk : ℤ) ≤ 10 then "Low"
                else if (0 + risk : ℤ) ≤ 20 then "Medium"
                else "High"⟩
      | none =>
          some ⟨"Fail", upiId, "Unknown Bank or App",
                pyInt (((25 : ℚ) - 5) / (25 - 5) * 100), "High"⟩
    else none
  else none

/-- Result of `CheckInvalidUPIPattern` (the fields the callers read). -/
structure InvalidCheck where
  is_valid : Bool
  error_type : Option String
  deriving Repr, DecidableEq

/-- `Tools/upi.py` `CheckInvalidUPIPattern`. -/
def CheckInvalidUPIPattern (upiId : List Char) : InvalidCheck :=
  if upiId.isEmpty then ⟨true, none⟩
  else
    let atCount := upiId.count '@'
    if atCount > 1 then ⟨false, some "MULTIPLE_AT_SYMBOLS"⟩
    else if upiId.contains '@' then
      let parts := pySplit '@' upiId
      let pre := parts.headD []
      if pre.length < 2 then ⟨false, some "INVALID_PREFIX"⟩
      else if pre.length > 256 then ⟨false, some "INVALID_PREFIX"⟩
      else
        let suffix := (parts.getLastD []).map Char.toLower
        if suffix.length < 2 then ⟨false, some "INVALID_SUFFIX"⟩
        else if suffix.length > 64 then ⟨false, some "INVALID_SUFFIX"⟩
        else if !reMatchAlnumPlus suffix then ⟨false, some "INVALID_SUFFIX"⟩
        else ⟨true, none⟩
    else ⟨true, none⟩

end UPI

namespace URLA

/-- The suspicious-TLD set literal of `URLAnalyzer.__init__` (the Python
`set` collapses the duplicated `.review`/`.country` entries; only
membership is used). -/
def suspiciousTlds : List String :=
  [ ".tk", ".ml", ".ga", ".cf", ".gq", ".xyz", ".top", ".work"
  , ".click", ".review", ".country", ".kim", ".science", ".cricket"
  , ".date", ".faith", ".accountant", ".loan", ".win", ".download"
  , ".pw", ".cc", ".su", ".ws", ".stream" ]

/-- The URL-shortener domain set literal of `URLAnalyzer.__init__`
(`is.gd` is listed twice in the source; sets collapse it). -/
def urlShorteners : List String :=
  [ "bit.ly", "tinyurl.com", "goo.gl", "t.co", "ow.ly", "is.gd"
  , "buff.ly", "adf.ly", "j.mp", "tr.im", "cli.gs", "short.to"
  , "budurl.com", "ping.fm", "post.ly", "just.as", "bkite.com"
  , "snipr.com", "fic.kr", "loopt.us", "doiop.com", "short.ie"
  , "kl.am", "wp.me", "rubyurl.com", "om.ly", "to.ly", "bit.do"
  , "lnkd.in", "db.tt", "qr.ae", "cur.lv", "ity.im", "q.gs"
  , "po.st", "bc.vc", "twitthis.com", "u.telecom", "yourls.org"
  , "v.gd", "rb.gy", "shorturl.at", "qrco.de", "cutt.ly", "bitly.com"
  , "tiny.cc", "shorte.st", "linktr.ee", "t.ly", "zaplink.net"
  , "mcaf.ee", "shorturl.æ”¯", "clck.ru", "git.io", "shorturl.io" ]

/-- The phishing-keyword list of `URLAnalyzer.__init__` (`confirm`
appears twice in the source list and is therefore counted twice). -/
def phishingKeywords : List String :=
  [ "login", "signin", "verify", "secure", "account", "update"
  , "confirm", "password", "credential", "banking", "paypal"
  , "ebay", "amazon", "apple", "microsoft", "google", "netflix"
  , "support", "service", "help", "confirm", "wallet", "crypto"
  , "bitcoin", "eth", "free", "gift", "winner", "lucky", "claim"
  , "verifyyour", "securelogin", "accountverify", "updateinfo"
  , "bankofamerica", "chase", "wellsfargo", "citibank", "sbi"
  , "hdfc", "icici", "axisbank", "okxd", "upi", "paytm" ]

/-- The brand names scanned by `_analyze_domain`. -/
def knownBrands : List String :=
  [ "google", "amazon", "apple", "microsoft", "paypal", "ebay"
  , "facebook", "instagram", "twitter", "netflix", "whatsapp", "telegram" ]

/-- The `scheme`/`netloc` components of `urllib.parse.urlparse`. -/
structure ParsedUrl where
  scheme : List Char
  netloc : List Char
  deriving Repr, DecidableEq

/-- A character of `urllib.parse.scheme_chars`. -/
def isSchemeChar (c : Char) : Bool :=
  c.isAlphanum || c == '+' || c == '-' || c == '.'

/-- Scheme extraction step of `urlsplit`: the text before the first `':'`
is the scheme (lowercased) when it is nonempty, starts with an ASCII
letter and uses only scheme characters. -/
def splitScheme (u : List Char) : List Char × List Char :=
  match u.findIdx? (· == ':') with
  | some i =>
      if 0 < i && (u.headD ' ').isAlpha && (u.take i).all isSchemeChar then
        ((u.take i).map Char.toLower, u.drop (i + 1))
      else ([], u)
  | none => ([], u)

/-- `_splitnetloc`: after a leading `"//"`, the netloc runs to the first
`'/'`, `'?'` or `'#'`; absent the `"//"` the netloc is empty. -/
def splitNetloc (rest : List Char) : List Char :=
  if rest.take 2 == ['/', '/'] then
    (rest.drop 2).takeWhile (fun c => !(c == '/' || c == '?' || c == '#'))
  else []

/-- `urllib.parse.urlparse` restricted to the `scheme`/`netloc` fields
the analyzer reads.  CPython first strips leading C0-control/space
characters, removes every tab, carriage return and newline, then splits
off scheme and netloc.  A netloc containing `'['` or `']'` makes
`urlsplit` validate a bracketed IPv6/IPvFuture host and raise
`ValueError` otherwise; the external `ipaddress` parser is not modelled,
so the model maps every bracketed netloc to the raising case
(`.error`). -/
def pyUrlParse (url : List Char) : Except Unit ParsedUrl :=
  let u := (url.dropWhile (fun c => decide (c.toNat ≤ 0x20))).filter
      (fun c => !(c == '\t' || c == '\r' || c == '\n'))
  let sr := splitScheme u
  let netloc := splitNetloc sr.2
  if netloc.contains '[' || netloc.contains ']' then .error ()
  else .ok ⟨sr.1, netloc⟩

/-- `URLAnalyzer._is_valid_url`: parse and require truthy (nonempty)
scheme and netloc; parse errors are caught and yield `False`. -/
def isValidUrl (url : List Char) : Bool :=
  match pyUrlParse url with
  | .error _ => false
  | .ok p => !p.scheme.isEmpty && !p.netloc.isEmpty

/-- `parsed.port`: the text after the first `':'` of the hostinfo (the
netloc after its last `'@'`; after the bracket for bracketed hosts).
Empty port text means no port; non-digit text or a value above 65535
raises `ValueError` (`.error`). -/
def pyPort (netloc : List Char) : Except Unit (Option ℕ) :=
  let hostinfo :=
    if netloc.contains '@' then (netloc.reverse.takeWhile (· != '@')).reverse
    else netloc
  let portStr :=
    if hostinfo.contains '[' then
      let bracketed := (hostinfo.dropWhile (· != '[')).drop 1
      let afterBr := (bracketed.dropWhile (· != ']')).drop 1
      (afterBr.dropWhile (· != ':')).drop 1
    else (hostinfo.dropWhile (· != ':')).drop 1
  if portStr.isEmpty then .ok none
  else if portStr.all Char.isDigit then
    if digitsToNat portStr ≤ 65535 then .ok (some (digitsToNat portStr)) else .error ()
  else .error ()

/-- Full match of `r'^\d{1,3}\.\d{1,3}\.\d{1,3}\.\d{1,3}$'`: exactly four
dot-separated runs of one to three digits.  (The strings this is applied
to come out of `pyUrlParse`, which has removed every newline, so the
`$`-before-newline case cannot arise.) -/
def matchIPv4 (l : List Char) : Bool :=
  match pySplit '.' l with
  | [a, b, c, d] =>
      [a, b, c, d].all (fun g => !g.isEmpty && decide (g.length ≤ 3) && g.all Char.isDigit)
  | _ => false

/-- `_analyze_structure` score: `'@'` in the URL +40, a truthy
non-standard port +20 (a `0` port is falsy in Python and scores
nothing), an IPv4-shaped netloc +35. -/
def structureScoreZ (url : List Char) (port : Option ℕ) (netloc : List Char) : ℤ :=
  (if url.contains '@' then 40 else 0)
  + (match port with
     | some p => if p ≠ 0 ∧ p ≠ 80 ∧ p ≠ 443 then 20 else 0
     | none => 0)
  + (if matchIPv4 netloc then 35 else 0)

/-- `_analyze_domain` score: hyphen +15, any digit +20, length > 30 +15,
more than two dots +15, first brand-lookalike hit +25. -/
def domainScoreZ (netloc : List Char) : ℤ :=
  let dl := netloc.map Char.toLower
  (if netloc.contains '-' then 15 else 0)
  + (if netloc.any Char.isDigit then 20 else 0)
  + (if 30 < netloc.length then 15 else 0)
  + (if 2 < netloc.count '.' then 15 else 0)
  + (if knownBrands.any (fun b =>
        containsSubL dl b.data
        && !(dl == ("www." ++ b ++ ".com").data)
        && !(dl == (b ++ ".com").data)) then 25 else 0)

/-- `_analyze_tld` score: 35 when the lowercased final dot-component is a
suspicious TLD. -/
def tldScoreZ (netloc : List Char) : ℤ :=
  let parts := pySplit '.' netloc
  let tld := if 2 ≤ parts.length then '.' :: parts.getLastD [] else []
  if suspiciousTlds.any (fun t => t.data == tld.map Char.toLower) then 35 else 0

/-- `_check_url_shortener` membership: exact lowercased-domain match
only. -/
def isShortenerExact (netloc : List Char) : Bool :=
  let domain := netloc.map Char.toLower
  urlShorteners.any (fun s => s.data == domain)

/-- `is_shortened_url`: exact match, or the loop accepting a domain that
ends with `'.' + shortener` (subdomain) or equals a shortener. -/
def isShortenedNetloc (netloc : List Char) : Bool :=
  let domain := netloc.map Char.toLower
  isShortenerExact netloc
  || urlShorteners.any (fun s => endsWithL domain ('.' :: s.data) || domain == s.data)

/-- `_check_phishing_keywords` hit count over the lowercased URL. -/
def keywordCount (url : List Char) : ℕ :=
  (phishingKeywords.filter (fun k => containsSubL (url.map Char.toLower) k.data)).length

/-- `_check_phishing_keywords` score: `min(10 * hits, 50)`. -/
def keywordScoreZ (url : List Char) : ℤ := min ((keywordCount url : ℤ) * 10) 50

/-- A character of the class `[0-9a-fA-F]`. -/
def isHexDigitChar (c : Char) : Bool :=
  c.isDigit || ('a' ≤ c && c ≤ 'f') || ('A' ≤ c && c ≤ 'F')

/-- `re.search(r'%[0-9a-fA-F]{2}', url)`. -/
def hasPercentHex : List Char → Bool
  | '%' :: a :: b :: rest => (isHexDigitChar a && isHexDigitChar b) || hasPercentHex (a :: b :: rest)
  | _ :: rest => hasPercentHex rest
  | [] => false

/-- The literal-substring members of `suspicious_patterns` (searched
case-insensitively). -/
def patternLits : List String :=
  [ ".php", ".asp", ".jsp", "admin", "login", "secure", "account"
  , "verify", "update", "confirm", "auth", "credential" ]

/-- `_check_suspicious_patterns` hit count: the four non-trivial regexes
(`@`, `--`, `..`, `%hh`) plus the case-insensitive literal patterns. -/
def patternCount (url : List Char) : ℕ :=
  let ul := url.map Char.toLower
  (if url.contains '@' then 1 else 0)
  + (if containsSubL url ['-', '-'] then 1 else 0)
  + (if containsSubL url ['.', '.'] then 1 else 0)
  + (if hasPercentHex url then 1 else 0)
  + (patternLits.filter (fun p => containsSubL ul p.data)).length

/-- `_check_suspicious_patterns` score: `min(15 * hits, 50)`. -/
def patternScoreZ (url : List Char) : ℤ := min ((patternCount url : ℤ) * 15) 50

/-- `_check_url_length` score. -/
def lengthScoreZ (url : List Char) : ℤ :=
  if 200 < url.length then 25 else if 100 < url.length then 10 else 0

/-- `_check_subdomains` count: `netloc.count('.') - 1` clamped at zero
(ℕ subtraction clamps exactly as the Python `if subdomain_count < 0`
branch does). -/
def subdomainCountN (netloc : List Char) : ℕ := netloc.count '.' - 1

/-- `_check_subdomains` score. -/
def subdomainScoreZ (netloc : List Char) : ℤ :=
  if 3 < subdomainCountN netloc then 20 else 0

/-- The fields of the `_check_ip_address` result dictionary. -/
structure IPResult where
  is_ip_address : Bool
  is_private_ip : Bool
  score : ℤ
  deriving Repr, DecidableEq

/-- `_check_ip_address`: strip the port from the netloc, test the IPv4
shape, classify 10.x / 192.168.x / 172.16-31.x as private; private IP
scores 50, public 35, otherwise 0. -/
def checkIpAddress (netloc : List Char) : IPResult :=
  let hostname := if netloc.contains ':' then netloc.takeWhile (· != ':') else netloc
  let isIp := matchIPv4 hostname
  let isPriv :=
    if isIp then
      let parts := pySplit '.' hostname
      let o1 := digitsToNat (parts.headD [])
      let o2 := if hostname.contains '.' then digitsToNat (parts.getD 1 []) else 0
      o1 == 10 || (o1 == 192 && o2 == 168)
        || (o1 == 172 && decide (16 ≤ o2) && decide (o2 ≤ 31))
    else false
  ⟨isIp, isPriv, if isIp then (if isPriv then 50 else 35) else 0⟩

/-- The ten per-check results gathered into `result["checks"]` (only the
fields read downstream). -/
structure URLChecks where
  structScore : ℤ
  domainScore : ℤ
  tldScore : ℤ
  shortenerIsShortener : Bool
  shortenerScore : ℤ
  keywordScore : ℤ
  patternScore : ℤ
  isHttps : Bool
  lengthScore : ℤ
  subdomainScore : ℤ
  ip : IPResult
  deriving Repr, DecidableEq

/-- Running the ten checks of `analyze_url` / `_analyze_full` on a URL
whose parse `p` succeeded.  The only check that can raise is
`_analyze_structure`, through `parsed.port`. -/
def runChecks (url : List Char) (p : ParsedUrl) : Except Unit URLChecks :=
  match pyPort p.netloc with
  | .error e => .error e
  | .ok port =>
      let shortExact := isShortenerExact p.netloc
      .ok { structScore := structureScoreZ url port p.netloc
          , domainScore := domainScoreZ p.netloc
          , tldScore := tldScoreZ p.netloc
          , shortenerIsShortener := shortExact
          , shortenerScore := if shortExact then 25 else 0
          , keywordScore := keywordScoreZ url
          , patternScore := patternScoreZ url
          , isHttps := (p.scheme.map Char.toLower) == "https".data
          , lengthScore := lengthScoreZ url
          , subdomainScore := subdomainScoreZ p.netloc
          , ip := checkIpAddress p.netloc }

/-- `_calculate_overall_risk`: fixed-weight sum (the `https_check`
dictionary carries no `"score"` key, so its 0.05 weight contributes
nothing), truncated and clamped, then the three escalation floors, then
the final clamp. -/
def calcOverallRisk (c : URLChecks) : ℤ :=
  let total : ℚ :=
    (c.structScore : ℚ) * (15 / 100) + (c.domainScore : ℚ) * (15 / 100)
    + (c.tldScore : ℚ) * (10 / 100) + (c.shortenerScore : ℚ) * (10 / 100)
    + (c.keywordScore : ℚ) * (20 / 100) + (c.patternScore : ℚ) * (15 / 100)
    + (c.lengthScore : ℚ) * (5 / 100) + (c.subdomainScore : ℚ) * (3 / 100)
    + (c.ip.score : ℚ) * (2 / 100)
  let base0 := min 100 (pyInt total)
  let base1 :=
    if c.ip.is_private_ip then
      max (if 0 < c.patternScore then max base0 65 else base0) 40
    else base0
  let base2 := if c.isHttps = false ∧ 15 ≤ c.patternScore then max base1 55 else base1
  min 100 base2

/-- `_get_risk_level`. -/
def urlRiskLevel (score : ℤ) : String :=
  if score ≤ 25 then "Low"
  else if score ≤ 50 then "Medium"
  else if score ≤ 75 then "High"
  else "Critical"

/-- Outcome of the external `expand_url` HTTP collaborator: either the
error dictionary of a failed request or the final URL after
redirects. -/
inductive ExpandOutcome where
  | fail (msg : String)
  | ok (finalUrl : List Char)
  deriving Repr, DecidableEq

/-- The fields of the `analyze_url` result dictionary that the claims
read. -/
structure URLReport where
  status : String
  is_shortened : Bool
  is_valid : Bool
  risk_score : ℤ
  risk_level : String
  checks : Option URLChecks
  deriving Repr, DecidableEq

/-- The fail-closed report of the validity gate. -/
def errorReport : URLReport :=
  { status := "error", is_shortened := false, is_valid := false
  , risk_score := 100, risk_level := "High", checks := none }

/-- `_analyze_full` reduced to the one field that feeds back into the
caller, its `risk_score`: 100 for an invalid URL, otherwise the
weighted overall risk of its own ten checks. -/
def analyzeFullRisk (url : List Char) : Except Unit ℤ :=
  if !isValidUrl url then .ok 100
  else
    match pyUrlParse url with
    | .error e => .error e
    | .ok p => (runChecks url p).map calcOverallRisk

/-- The expanded-destination risk feeding the final combination:
0 unless the URL is shortened and expansion is requested; a failed
expansion contributes 0 (warning only); a successful expansion to a
truthy, valid URL contributes the full `_analyze_full` risk of the
destination (whose `parsed.port` may raise). -/
def expandedRiskOf (shortened expandShortened : Bool) (expandRes : ExpandOutcome) :
    Except Unit ℤ :=
  if shortened && expandShortened then
    match expandRes with
    | .fail _ => .ok 0
    | .ok e => if !e.isEmpty && isValidUrl e then analyzeFullRisk e else .ok 0
  else .ok 0

/-- The shortened-URL combination of `analyze_url`:
`min(100, max(base, expanded) + 40)`, further escalated to
`min(100, max(final, (base + expanded) // 2 + 35))` when the expanded
risk exceeds 50; an unshortened URL keeps its base risk. -/
def combineRisk (shortened : Bool) (base er : ℤ) : ℤ :=
  if shortened then
    let f := min 100 (max base er + 40)
    if 50 < er then min 100 (max f (Int.fdiv (base + er) 2 + 35)) else f
  else base

/-- The success-path result dictionary of `analyze_url`. -/
def successReport (shortened : Bool) (base er : ℤ) (c : URLChecks) : URLReport :=
  { status := "success", is_shortened := shortened, is_valid := true
  , risk_score := combineRisk shortened base er
  , risk_level := urlRiskLevel (combineRisk shortened base er)
  , checks := some c }

/-- `URLAnalyzer.analyze_url`.  `expandRes` is the response of the
external redirect-following collaborator, consulted only when the URL is
shortened and `expandShortened` is set.  A `ValueError` escaping from
`parsed.port` (no surrounding `try`) aborts the call without a report,
modelled as `none`. -/
def analyzeUrl (url : List Char) (expandShortened : Bool) (expandRes : ExpandOutcome) :
    Option URLReport :=
  match pyUrlParse url with
  | .error _ => some errorReport
  | .ok p =>
    if p.scheme.isEmpty || p.netloc.isEmpty then some errorReport
    else
      match expandedRiskOf (isShortenedNetloc p.netloc) expandShortened expandRes with
      | .error _ => none
      | .ok er =>
        match runChecks url p with
        | .error _ => none
        | .ok c => some (successReport (isShortenedNetloc p.netloc) (calcOverallRisk c) er c)

end URLA

namespace QRA

/-- A rectangular grayscale pixel region (a `boundingRect` crop of the
image), pixel values being bytes. -/
structure GrayRegion where
  h : ℕ
  w : ℕ
  px : ℕ → ℕ → Fin 256

/-- One contour as delivered by
`cv2.findContours(cv2.Canny(gray, 50, 150), RETR_EXTERNAL,
CHAIN_APPROX_SIMPLE)`, carrying the facts the analyzer reads from cv2:
the vertex count of `approxPolyDP` at `epsilon = 0.02 * arcLength`, the
`contourArea`, and the grayscale crop of its bounding rectangle. -/
structure Contour where
  approxLen : ℕ
  area : ℚ
  region : GrayRegion

/-- What the cv2 pixel primitives extract from a successfully loaded
image: the Laplacian variance, the shared edge-contour list used by both
the structure and the symmetry metric, the percentage of pixels that
differ from the median-filtered image by more than 30, and the three
per-scale maxima of `matchTemplate` against the finder-pattern
kernel. -/
structure ImageFeatures where
  lapVar : ℚ
  contours : List Contour
  noisePct : ℚ
  m08 : ℚ
  m10 : ℚ
  m12 : ℚ

/-- `QRAnalyzer._analyze_image_quality`. -/
def analyzeImageQuality (lapVar : ℚ) : ℚ :=
  let qualityScore := min 100 (lapVar / 500 * 100)
  if qualityScore < 50 then 40 else if qualityScore < 70 then 60 else 85

/-- The per-contour test of `_analyze_qr_structure`: at least four
approximation vertices and area above 100. -/
def isSquareish (c : Contour) : Bool :=
  decide (4 ≤ c.approxLen) && decide ((100 : ℚ) < c.area)

/-- `QRAnalyzer._analyze_qr_structure`: share of square-like contours,
as a percentage; 0 when no contours were found. -/
def analyzeQrStructure (contours : List Contour) : ℚ :=
  let squareCount := (contours.filter isSquareish).length
  let total := contours.length
  let structureScore :=
    if 0 < total then ((squareCount : ℚ) / (total : ℚ)) * 100 else 0
  min 100 structureScore

/-- `QRAnalyzer._analyze_noise_patterns`. -/
def analyzeNoisePatterns (noisePct : ℚ) : ℚ :=
  if 15 < noisePct then 20 else if 8 < noisePct then 40 else 80

/-- Python `max(contours, key=cv2.contourArea)`: the first contour of
maximal area. -/
def largestContour (c : Contour) (rest : List Contour) : Contour :=
  rest.foldl (fun best d => if best.area < d.area then d else best) c

/-- Sum of absolute pixel differences between two `hm × wm` quadrants of
`g` anchored at `(r1, c1)` and `(r2, c2)` (the matrix `cv2.absdiff`
summed). -/
def quadrantAbsDiffSum (g : GrayRegion) (hm wm r1 c1 r2 c2 : ℕ) : ℤ :=
  ∑ i in Finset.range hm, ∑ j in Finset.range wm,
    |((g.px (r1 + i) (c1 + j)).val : ℤ) - ((g.px (r2 + i) (c2 + j)).val : ℤ)|

/-- `compare_regions` of `_analyze_qr_symmetry`:
`100 - mean(absdiff) * 100 / 255`, and 0 when either region is empty. -/
def compareRegions (g : GrayRegion) (hm wm r1 c1 r2 c2 : ℕ) : ℚ :=
  if hm * wm = 0 then 0
  else 100 - ((quadrantAbsDiffSum g hm wm r1 c1 r2 c2 : ℚ) / ((hm * wm : ℕ) : ℚ)) * 100 / 255

/-- `QRAnalyzer._analyze_qr_symmetry`: 30 when no contours (or an empty
crop); otherwise the mean of the three quadrant comparisons
(top-left/top-right, top-left/bottom-left, bottom-left/bottom-right) of
the largest contour's bounding-rectangle crop. -/
def analyzeQrSymmetry (contours : List Contour) : ℚ :=
  match contours with
  | [] => 30
  | c :: rest =>
      let g := (largestContour c rest).region
      if g.h * g.w = 0 then 30
      else
        let hm := g.h / 2
        let wm := g.w / 2
        (compareRegions g hm wm 0 0 0 wm + compareRegions g hm wm 0 0 hm 0
          + compareRegions g hm wm hm 0 hm wm) / 3

/-- `QRAnalyzer._analyze_finder_patterns`: average the three per-scale
maximal correlations, then quantize. -/
def analyzeFinderPatterns (m08 m10 m12 : ℚ) : ℚ :=
  let avg := (m08 + m10 + m12) / 3
  if (7 / 10 : ℚ) < avg then 85 else if (5 / 10 : ℚ) < avg then 60 else 30

/-- `QRAnalyzer._calculate_risk_score`: weights applied to
`100 - sub_score`, clamped above at 100. -/
def calcRiskScore (q s n sy f : ℚ) : ℚ :=
  min 100 ((100 - q) * (25 / 100) + (100 - s) * (20 / 100) + (100 - n) * (20 / 100)
    + (100 - sy) * (20 / 100) + (100 - f) * (15 / 100))

/-- The `analysis_details` dictionary of a successful analysis. -/
structure QRDetails where
  quality_score : ℚ
  structure_score : ℚ
  noise_score : ℚ
  symmetry_score : ℚ
  finder_pattern_score : ℚ

/-- The fields of the `analyze_qr_image` result the claims read
(`details` is absent from the error dictionary). -/
structure QRReport where
  status : String
  is_masked : Bool
  risk_score : ℤ
  risk_level : String
  details : Option QRDetails

/-- `self.tampering_threshold`. -/
def tamperingThreshold : ℚ := 30

/-- `QRAnalyzer.analyze_qr_image` of `Tools/qr_analysis.py`.  `none`
models `cv2.imread` returning `None`; the `except` branch of the source
returns the same fail-closed `status/risk_score/risk_level` fields.  The
decoded payload (`decoded_data`) is produced by external decode
collaborators and does not influence the risk fields. -/
def analyzeQrImage (img : Option ImageFeatures) : QRReport :=
  match img with
  | none => ⟨"error", true, 100, "High", none⟩
  | some f =>
      let q := analyzeImageQuality f.lapVar
      let s := analyzeQrStructure f.contours
      let n := analyzeNoisePatterns f.noisePct
      let sy := analyzeQrSymmetry f.contours
      let fp := analyzeFinderPatterns f.m08 f.m10 f.m12
      let risk := calcRiskScore q s n sy fp
      let isMasked := decide (tamperingThreshold ≤ risk)
      let level := if risk ≤ 30 then "Low" else if risk ≤ 60 then "Medium" else "High"
      ⟨"success", isMasked, pyInt risk, level, some ⟨q, s, n, sy, fp⟩⟩

end QRA

namespace Classify

/-- The protocol-prefix list of `analyze_qr_content`. -/
def protocolStarts : List String := ["http://", "https://", "ftp://", "www.", "WWW."]

/-- Numeric value of a hexadecimal digit. -/
def hexVal (c : Char) : ℕ :=
  if c.isDigit then c.toNat - 48
  else if 'a' ≤ c && c ≤ 'f' then c.toNat - 87
  else c.toNat - 55

/-- `urllib.parse.unquote_plus` restricted to single-byte escapes:
`'+'` becomes a space and `%hh` becomes the character with that code;
a malformed escape is left as-is. -/
def pyUnquotePlus : List Char → List Char
  | '+' :: rest => ' ' :: pyUnquotePlus rest
  | '%' :: a :: b :: rest =>
      if URLA.isHexDigitChar a && URLA.isHexDigitChar b then
        Char.ofNat (16 * hexVal a + hexVal b) :: pyUnquotePlus rest
      else '%' :: pyUnquotePlus (a :: b :: rest)
  | c :: rest => c :: pyUnquotePlus rest
  | [] => []

/-- `urlparse(url).query`: the text between the first `'?'` after the
netloc and a following `'#'`; raises (`.error`) for bracketed netlocs as
in `URLA.pyUrlParse`. -/
def pyParseQuery (url : List Char) : Except Unit (List Char) :=
  let u := (url.dropWhile (fun c => decide (c.toNat ≤ 0x20))).filter
      (fun c => !(c == '\t' || c == '\r' || c == '\n'))
  let sr := URLA.splitScheme u
  let rest := sr.2
  let netloc := URLA.splitNetloc rest
  if netloc.contains '[' || netloc.contains ']' then .error ()
  else
    let afterNetloc :=
      if rest.take 2 == ['/', '/'] then
        (rest.drop 2).dropWhile (fun c => !(c == '/' || c == '?' || c == '#'))
      else rest
    let noFrag := afterNetloc.takeWhile (· != '#')
    .ok (if noFrag.contains '?' then (noFrag.dropWhile (· != '?')).drop 1 else [])

/-- First value of the `pa` key of `parse_qs(query)`: pairs split on
`'&'`, name/value split at the first `'='`, blank values dropped
(`keep_blank_values=False`), names and values `unquote_plus`-decoded. -/
def qsFirstPa (query : List Char) : Option (List Char) :=
  (pySplit '&' query).findSome? (fun nv =>
    if nv.isEmpty then none
    else if nv.contains '=' then
      let name := nv.takeWhile (· != '=')
      let value := (nv.dropWhile (· != '=')).drop 1
      if !value.isEmpty then
        if pyUnquotePlus name == "pa".data then some (pyUnquotePlus value) else none
      else none
    else none)

/-- The routing outcome of `analyze_qr_content` (the fields of the
result dictionary the claims read): the assigned `type`, the UPI
identifier handed to the UPI validator (with `upiInvalid` when the
details are the synthesized `status=Invalid` dictionary), or the URL
handed to `analyze_url_realtime`. -/
structure ContentResult where
  ctype : String
  upiid : Option (List Char) := none
  upiInvalid : Bool := false
  urlTarget : Option (List Char) := none
  deriving Repr, DecidableEq

/-- Rules 3 and 4 of `analyze_qr_content`: protocol prefix or
dot-without-space gives `url` (prepending `https://` for a bare
`www.`), otherwise `text`. -/
def urlOrText (c : List Char) : ContentResult :=
  if protocolStarts.any (fun p => startsWithL c p.data)
      || (c.contains '.' && !(c.contains ' ')) then
    let url := if startsWithL (c.map Char.toLower) "www.".data then "https://".data ++ c else c
    ⟨"url", none, false, some url⟩
  else ⟨"text", none, false, none⟩

/-- `analyze_qr_content` of `Tools/qrcode.py`.  Empty content returns
`None`.  In the `upi://` branch an exception from `urlparse` is
swallowed (`except: pass`) and a missing/blank `pa` parameter falls
through, in both cases continuing with the `'@'` rule. -/
def analyzeQrContent (content : List Char) : Option ContentResult :=
  if content.isEmpty then none
  else
    let c := pyStrip content
    let upiBranch : Option ContentResult :=
      if startsWithL c "upi://".data then
        match pyParseQuery c with
        | .error _ => none
        | .ok query =>
          match qsFirstPa query with
          | none => none
          | some uid =>
              if !(UPI.CheckInvalidUPIPattern uid).is_valid then
                some ⟨"upi", some uid, true, none⟩
              else some ⟨"upi", some uid, false, none⟩
      else none
    match upiBranch with
    | some r => some r
    | none =>
        if c.contains '@' then
          if !(UPI.CheckInvalidUPIPattern c).is_valid then
            some ⟨"upi", some c, true, none⟩
          else if UPI.reMatchUpiPattern c then
            some ⟨"upi", some c, false, none⟩
          else some (urlOrText c)
        else some (urlOrText c)

end Classify

/-- The ten check results `analyze_url` computes on
`http://192.168.1.1:8080/login.php`: non-standard port (+20), digits and
three dots in the netloc (+35), the `login` keyword (+10), the `login`
and `.php` patterns (+30), no HTTPS, and a private IPv4 host (+50). -/
def loginPhpChecks : URLA.URLChecks :=
  ⟨20, 35, 0, false, 0, 10, 30, false, 0, 0, ⟨true, true, 50⟩⟩

/-- The checks `analyze_url` computes on `https://bit.ly/abc123`: only
the exact shortener match fires (+25). -/
def bitlyChecks : URLA.URLChecks := ⟨0, 0, 0, true, 25, 0, 0, true, 0, 0, ⟨false, false, 0⟩⟩

/-- The checks `_analyze_full` computes on the expanded destination
`https://example.com/a`: nothing fires. -/
def exampleComChecks : URLA.URLChecks := ⟨0, 0, 0, false, 0, 0, 0, true, 0, 0, ⟨false, false, 0⟩⟩

/-- The checks `analyze_url` computes on `https://x.bit.ly/abc`: nothing
fires — in particular the shortener check scores 0, because
`x.bit.ly` is not an exact member of the shortener set. -/
def xbitlyChecks : URLA.URLChecks := ⟨0, 0, 0, false, 0, 0, 0, true, 0, 0, ⟨false, false, 0⟩⟩

/-- The condition under which rule 2 of `analyze_qr_content`, as the
code implements it, routes a stripped payload to the UPI validator: an
`'@'` is present and the payload either fails the
`CheckInvalidUPIPattern` pre-check (yielding the synthesized Invalid
details) or matches the UPI regex. -/
def upiRouted (c : List Char) : Prop :=
  c.contains '@' = true ∧
    ((UPI.CheckInvalidUPIPattern c).is_valid = false ∨ UPI.reMatchUpiPattern c = true)

/-- The URL rule (rule 3) of `analyze_qr_content`: a known protocol
prefix, or a dot together with no space character. -/
def urlRouted (c : List Char) : Prop :=
  Classify.protocolStarts.any (fun p => startsWithL c p.data) = true ∨
    (c.contains '.' = true ∧ c.contains ' ' = false)

/-- A 10×10 grayscale crop whose four 5×5 quadrants form a checkerboard
(top-left and bottom-right dark, the other two bright): every quadrant
comparison of `_analyze_qr_symmetry` sees a constant absolute
difference of 229. -/
def cbRegion : QRA.GrayRegion :=
  ⟨10, 10, fun i j => if (decide (i < 5)) != decide (j < 5) then 229 else 0⟩

/-- A square-like contour (4 approximation vertices, area above 100)
whose bounding-rectangle crop is the checkerboard `cbRegion`. -/
def sqContour : QRA.Contour := ⟨4, 101, cbRegion⟩

/-- A tiny uniform crop. -/
def smallRegion : QRA.GrayRegion := ⟨2, 2, fun _ _ => 0⟩

/-- A non-square contour (3 vertices, area 50 ≤ 100) that dilutes the
square-contour ratio of `_analyze_qr_structure`. -/
def otherContour : QRA.Contour := ⟨3, 50, smallRegion⟩

/-- The all-uniform-gray image of the claim: sharp (Laplacian variance
500), no contours, no noise, strong finder-pattern correlation 0.8 at
every scale. -/
def uniformGrayFeatures : QRA.ImageFeatures := ⟨500, [], 0, 8 / 10, 8 / 10, 8 / 10⟩

/-- The same image features except that contour detection returns one
square-like checkerboard contour among 19 small ones: the structure
score is 5 and the symmetry score 520/51 ≈ 10.2, both nonzero. -/
def lowSymFeatures : QRA.ImageFeatures :=
  ⟨500, sqContour :: List.replicate 19 otherContour, 0, 8 / 10, 8 / 10, 8 / 10⟩

theorem ratFloor_eq_intFloor (q : ℚ) : q.floor = ⌊q⌋ :=
  (Rat.floor_def' q).trans Rat.floor_def.symm

theorem pyInt_eq_floor {q : ℚ} (h : 0 ≤ q) : pyInt q = ⌊q⌋ := by
  unfold pyInt
  rw [if_pos h, ratFloor_eq_intFloor]

theorem pyInt_nonneg {q : ℚ} (h : 0 ≤ q) : 0 ≤ pyInt q := by
  rw [pyInt_eq_floor h]
  exact Int.floor_nonneg.mpr h

theorem pyInt_le_cast {q : ℚ} {n : ℤ} (h0 : 0 ≤ q) (h : q ≤ (n : ℚ)) : pyInt q ≤ n := by
  rw [pyInt_eq_floor h0]
  calc ⌊q⌋ ≤ ⌊(n : ℚ)⌋ := Int.floor_le_floor h
    _ = n := Int.floor_intCast n

theorem pySplit_ne_nil (sep : Char) (l : List Char) : pySplit sep l ≠ [] := by
  cases l with
  | nil => simp [pySplit]
  | cons c t =>
      simp only [pySplit]
      split <;> simp

theorem pySplit_length (sep : Char) (l : List Char) :
    (pySplit sep l).length = l.count sep + 1 := by
  induction l with
  | nil => simp [pySplit]
  | cons c t ih =>
      simp only [pySplit]
      by_cases h : c == sep
      · rw [if_pos h]
        simp [List.count_cons, h, ih]
      · rw [if_neg h]
        cases hr : pySplit sep t with
        | nil => exact absurd hr (pySplit_ne_nil sep t)
        | cons a r' =>
            have := ih
            rw [hr] at this
            simp [List.count_cons, h, ← this]

theorem pySplit_headD (sep : Char) (l : List Char) :
    (pySplit sep l).headD [] = l.takeWhile (fun c => c != sep) := by
  induction l with
  | nil => simp [pySplit]
  | cons c t ih =>
      by_cases h : c == sep
      · have hf : (c != sep) = false := by simpa [bne] using h
        simp [pySplit, h, List.takeWhile_cons, hf]
      · have ht : (c != sep) = true := by simpa [bne] using h
        cases hr : pySplit sep t with
        | nil => exact absurd hr (pySplit_ne_nil sep t)
        | cons a r' =>
            rw [hr] at ih
            simp only [List.headD_cons] at ih
            simp [pySplit, h, hr, List.takeWhile_cons, ht, ih]

theorem contains_of_mem {a : Char} {l : List Char} (h : a ∈ l) : l.contains a = true :=
  List.elem_iff.mpr h

theorem mem_of_contains {a : Char} {l : List Char} (h : l.contains a = true) : a ∈ l :=
  List.elem_iff.mp h

theorem upiCoreMatch_contains {s : List Char} (h : UPI.upiCoreMatch s = true) :
    s.contains '@' = true := by
  unfold UPI.upiCoreMatch at h
  split at h
  case h_2 => exact absurd h (by simp)
  case h_1 pre suf heq =>
    have hlen := pySplit_length '@' s
    rw [heq] at hlen
    have hc : 0 < s.count '@' := by simp at hlen; omega
    exact contains_of_mem (List.count_pos_iff.mp hc)

theorem reMatch_contains {s : List Char} (h : UPI.reMatchUpiPattern s = true) :
    s.contains '@' = true := by
  unfold UPI.reMatchUpiPattern at h
  rcases Bool.or_eq_true_iff.mp h with hcore | hdrop
  · exact upiCoreMatch_contains hcore
  · have hcore' := (Bool.and_eq_true _ _ |>.mp hdrop).2
    have hmem : '@' ∈ s.dropLast := mem_of_contains (upiCoreMatch_contains hcore')
    exact contains_of_mem ((List.dropLast_sublist s).subset hmem)

/-- C3: the claim validates `"a@oksbi"`, but its prefix `"a"` is shorter
than the two characters that both the `VerifyUPI` regex and
`CheckInvalidUPIPattern` require: `VerifyUPI` falls through and returns
`None`, and the pre-check reports `INVALID_PREFIX`, so the validation
does not succeed with riskscore 25 / level Low. -/
theorem claim_C3_counterexample :
    UPI.VerifyUPI "a@oksbi".data = none ∧
    (UPI.CheckInvalidUPIPattern "a@oksbi".data).is_valid = false ∧
    (UPI.CheckInvalidUPIPattern "a@oksbi".data).error_type = some "INVALID_PREFIX" := by
  refine ⟨?_, ?_, ?_⟩ <;> decide

/-- C3 (amended): validating `"ab@oksbi"` — a prefix of the minimal legal
length two — succeeds exactly as the claim describes: the suffix resolves
to `oksbi` with base risk 10, the normalized riskscore is
`(10-5)/20*100 = 25`, and the level is `Low` because the raw base risk 10
is at most 10. -/
theorem claim_C3_oksbi_amended :
    UPI.bankLookup ("oksbi".data) = some ("Google Pay – SBI", 10) ∧
    pyInt (((10 : ℚ) - 5) / (25 - 5) * 100) = 25 ∧
    UPI.VerifyUPI "ab@oksbi".data =
      some ⟨"Success", "ab@oksbi".data, "Google Pay – SBI", 25, "Low"⟩ := by
  have h25 : pyInt (((10 : ℚ) - 5) / (25 - 5) * 100) = 25 := by
    rw [pyInt_eq_floor (by norm_num)]
    norm_num
  refine ⟨by decide, h25, ?_⟩
  have h1 : UPI.reMatchUpiPattern "ab@oksbi".data = true := by decide
  have h2 : ("ab@oksbi".data).contains '@' = true := by decide
  have h3 : UPI.bankLookup (((pySplit '@' "ab@oksbi".data).getLastD []).map Char.toLower)
      = some ("Google Pay – SBI", 10) := by decide
  unfold UPI.VerifyUPI
  rw [h1, h2]
  simp only [if_true, h3]
  norm_num
  rw [pyInt_eq_floor (by norm_num)]
  norm_num

/-- C4: every string matching the UPI regex whose lowercased suffix (the
segment after the last `'@'`) is not a key of the static bank table gets
`status=Fail`, `riskscore = (25-5)/(25-5)*100 = 100`, `risklevel=High`
and bank `"Unknown Bank or App"`. -/
theorem claim_C4_unknown_suffix (s : List Char)
    (hm : UPI.reMatchUpiPattern s = true)
    (hl : UPI.bankLookup (((pySplit '@' s).getLastD []).map Char.toLower) = none) :
    UPI.VerifyUPI s = some ⟨"Fail", s, "Unknown Bank or App", 100, "High"⟩ := by
  have h100 : pyInt (((25 : ℚ) - 5) / (25 - 5) * 100) = 100 := by
    rw [pyInt_eq_floor (by norm_num)]
    norm_num
  unfold UPI.VerifyUPI
  simp only [List.getLastD_eq_getLast?] at hl
  simp [hm, reMatch_contains hm, hl, h100, mem_of_contains (reMatch_contains hm)]

/-- C4 witness: `"ab@unknownbank"` matches the regex, its suffix is
unknown, and the theorem instantiates to the concrete `Fail` report. -/
theorem claim_C4_unknown_suffix_witness :
    UPI.VerifyUPI "ab@unknownbank".data =
      some ⟨"Fail", "ab@unknownbank".data, "Unknown Bank or App", 100, "High"⟩ :=
  claim_C4_unknown_suffix "ab@unknownbank".data (by decide) (by decide)

theorem count_eq_zero_of_not_contains {a : Char} {s : List Char}
    (h : s.contains a = false) : s.count a = 0 := by
  refine List.count_eq_zero.mpr (fun hm => ?_)
  rw [contains_of_mem hm] at h
  exact Bool.true_eq_false.mp h

/-- C5: the claimed characterization of `CheckInvalidUPIPattern` fails on
the suffix-alphabet clause: the suffix check is
`re.match(r'^[a-zA-Z0-9]+$', suffix)`, and Python's `$` also matches just
before a newline that ends the string.  `"ab@xy\n"` has exactly one `'@'`,
a legal prefix, and a suffix `"xy\n"` containing `'\n'` — a character
outside `[a-zA-Z0-9]` — yet the function reports it as valid. -/
theorem claim_C5_counterexample :
    ("ab@xy\n".data).count '@' = 1 ∧
    ((pySplit '@' "ab@xy\n".data).getLastD []).any (fun c => !c.isAlphanum) = true ∧
    (UPI.CheckInvalidUPIPattern "ab@xy\n".data).is_valid = true := by
  refine ⟨by decide, by decide, by decide⟩

/-- C5 (amended): `CheckInvalidUPIPattern` returns `is_valid = false`
exactly when the input has more than one `'@'`, or has an `'@'` and the
segment before the first `'@'` has length below 2 or above 256, or has an
`'@'` and the segment after the last `'@'` has length below 2 or above
64 or (lowercased) fails `^[a-zA-Z0-9]+$` under Python's `$` rule, which
tolerates one trailing newline.  The empty string and every string
without `'@'` are valid, and each failure reports the claimed
`error_type`. -/
theorem claim_C5_characterization_amended (s : List Char) :
    ((UPI.CheckInvalidUPIPattern s).is_valid = false ↔
      (1 < s.count '@'
        ∨ (s.contains '@' = true ∧
            (((pySplit '@' s).headD []).length < 2 ∨ 256 < ((pySplit '@' s).headD []).length))
        ∨ (s.contains '@' = true ∧
            (((pySplit '@' s).getLastD []).length < 2 ∨ 64 < ((pySplit '@' s).getLastD []).length
              ∨ UPI.reMatchAlnumPlus (((pySplit '@' s).getLastD []).map Char.toLower) = false)))) ∧
    (s = [] → (UPI.CheckInvalidUPIPattern s).is_valid = true) ∧
    (s.contains '@' = false → (UPI.CheckInvalidUPIPattern s).is_valid = true) ∧
    (1 < s.count '@' → (UPI.CheckInvalidUPIPattern s).error_type = some "MULTIPLE_AT_SYMBOLS") ∧
    (¬1 < s.count '@' → s.contains '@' = true →
      (((pySplit '@' s).headD []).length < 2 ∨ 256 < ((pySplit '@' s).headD []).length) →
      (UPI.CheckInvalidUPIPattern s).error_type = some "INVALID_PREFIX") ∧
    (¬1 < s.count '@' → s.contains '@' = true →
      ¬(((pySplit '@' s).headD []).length < 2 ∨ 256 < ((pySplit '@' s).headD []).length) →
      (((pySplit '@' s).getLastD []).length < 2 ∨ 64 < ((pySplit '@' s).getLastD []).length
        ∨ UPI.reMatchAlnumPlus (((pySplit '@' s).getLastD []).map Char.toLower) = false) →
      (UPI.CheckInvalidUPIPattern s).error_type = some "INVALID_SUFFIX") := by
  unfold UPI.CheckInvalidUPIPattern
  by_cases h0 : s.isEmpty = true
  · have hs : s = [] := by simpa [List.isEmpty_iff] using h0
    subst hs
    simp [pySplit]
  · have hne : ¬s = [] := by simpa [List.isEmpty_iff] using h0
    rw [if_neg h0]
    by_cases h1 : s.count '@' > 1
    · have hc : s.contains '@' = true := by
        rcases Bool.eq_false_or_eq_true (s.contains '@') with h | h
        · exact h
        · rw [count_eq_zero_of_not_contains h] at h1; omega
      simp [h1, hne, mem_of_contains hc]
    · rw [if_neg h1]
      by_cases h2 : s.contains '@' = true
      · rw [if_pos h2]
        by_cases h3 : ((pySplit '@' s).headD []).length < 2
        · simp_all
        · rw [if_neg h3]
          by_cases h4 : ((pySplit '@' s).headD []).length > 256
          · simp_all
          · rw [if_neg h4]
            by_cases h5 : (((pySplit '@' s).getLastD []).map Char.toLower).length < 2
            · simp_all
            · rw [if_neg h5]
              by_cases h6 : (((pySplit '@' s).getLastD []).map Char.toLower).length > 64
              · simp_all
              · rw [if_neg h6]
                by_cases h7 :
                    UPI.reMatchAlnumPlus (((pySplit '@' s).getLastD []).map Char.toLower) = false
                · simp_all
                · simp_all
      · have hcF : s.contains '@' = false := by
          rcases Bool.eq_false_or_eq_true (s.contains '@') with h | h
          · exact absurd h h2
          · exact h
        rw [if_neg h2]
        simp_all

/-- C2: an invalid URL does produce `status=error` with `risk_score=100`,
but the `risk_level` is `"High"`, which is not the highest category of
the URL analyzer's own scale: its `_get_risk_level` maps the maximal
score 100 to `"Critical"`.  The fail-closed report therefore does not
carry the analyzer's highest category. -/
theorem claim_C2_counterexample :
    URLA.analyzeUrl "notaurl".data true (.fail "x") = some URLA.errorReport ∧
    URLA.errorReport.status = "error" ∧
    URLA.errorReport.risk_score = 100 ∧
    URLA.errorReport.risk_level = "High" ∧
    URLA.urlRiskLevel URLA.errorReport.risk_score = "Critical" ∧
    URLA.errorReport.risk_level ≠ URLA.urlRiskLevel URLA.errorReport.risk_score := by
  refine ⟨by decide, by decide, by decide, by decide, by decide, by decide⟩

/-- C2 (amended): for both top-level analyzers, `status=error` implies
`risk_score=100` and `risk_level="High"` — which is the highest category
of the image analyzer's Low/Medium/High scale but only the second
highest of the URL analyzer's Low/Medium/High/Critical scale; and every
URL failing the validity gate (parse failure, or empty scheme or host)
yields exactly that fail-closed error report. -/
theorem claim_C2_fail_closed_amended :
    (∀ url b exp r, URLA.analyzeUrl url b exp = some r → r.status = "error" →
        r.risk_score = 100 ∧ r.risk_level = "High") ∧
    (∀ img, (QRA.analyzeQrImage img).status = "error" →
        (QRA.analyzeQrImage img).risk_score = 100 ∧
        (QRA.analyzeQrImage img).risk_level = "High") ∧
    (∀ url b exp, URLA.isValidUrl url = false →
        URLA.analyzeUrl url b exp = some URLA.errorReport) := by
  refine ⟨?_, ?_, ?_⟩
  · intro url b exp r h hstat
    unfold URLA.analyzeUrl at h
    split at h
    · obtain rfl : URLA.errorReport = r := Option.some.inj h
      exact ⟨rfl, rfl⟩
    · split at h
      · obtain rfl : URLA.errorReport = r := Option.some.inj h
        exact ⟨rfl, rfl⟩
      · split at h
        · exact absurd h (by simp)
        · split at h
          · exact absurd h (by simp)
          · obtain rfl := Option.some.inj h
            simp only [URLA.successReport] at hstat
            exact absurd hstat (by decide)
  · intro img h
    cases img with
    | none => exact ⟨rfl, rfl⟩
    | some f => exact absurd h (by simp [QRA.analyzeQrImage])
  · intro url b exp hv
    unfold URLA.isValidUrl at hv
    unfold URLA.analyzeUrl
    split
    · rfl
    · rename_i p hp
      rw [hp] at hv
      rw [if_pos]
      simp only [Bool.and_eq_false_iff] at hv
      rcases hv with hv | hv <;> simp [Bool.not_eq_false] at hv <;> simp [hv]
  
/-- C2 witness: the three amended conjuncts applied at concrete inputs:
the unparsable URL `"nohost"` and the unloadable image. -/
theorem claim_C2_fail_closed_amended_witness :
    (URLA.errorReport.risk_score = 100 ∧ URLA.errorReport.risk_level = "High") ∧
    ((QRA.analyzeQrImage none).risk_score = 100 ∧
      (QRA.analyzeQrImage none).risk_level = "High") ∧
    URLA.analyzeUrl "nohost".data true (.fail "") = some URLA.errorReport :=
  ⟨claim_C2_fail_closed_amended.1 "nohost".data true (.fail "") URLA.errorReport
      (by decide) (by decide),
   claim_C2_fail_closed_amended.2.1 none (by decide),
   claim_C2_fail_closed_amended.2.2 "nohost".data true (.fail "") (by decide)⟩

theorem ite_nonneg_int {b : Prop} [Decidable b] {x y : ℤ} (hx : 0 ≤ x) (hy : 0 ≤ y) :
    0 ≤ if b then x else y := by
  split_ifs <;> assumption

theorem structureScoreZ_nonneg (url : List Char) (port : Option ℕ) (netloc : List Char) :
    0 ≤ URLA.structureScoreZ url port netloc := by
  unfold URLA.structureScoreZ
  cases port <;> dsimp only <;> split_ifs <;> norm_num

theorem domainScoreZ_nonneg (netloc : List Char) : 0 ≤ URLA.domainScoreZ netloc := by
  simp only [URLA.domainScoreZ]
  split_ifs <;> norm_num

theorem tldScoreZ_nonneg (netloc : List Char) : 0 ≤ URLA.tldScoreZ netloc := by
  simp only [URLA.tldScoreZ]
  split_ifs <;> norm_num

theorem keywordScoreZ_nonneg (url : List Char) : 0 ≤ URLA.keywordScoreZ url := by
  simp only [URLA.keywordScoreZ]
  exact le_min (by positivity) (by norm_num)

theorem patternScoreZ_nonneg (url : List Char) : 0 ≤ URLA.patternScoreZ url := by
  simp only [URLA.patternScoreZ]
  exact le_min (by positivity) (by norm_num)

theorem lengthScoreZ_nonneg (url : List Char) : 0 ≤ URLA.lengthScoreZ url := by
  simp only [URLA.lengthScoreZ]
  split_ifs <;> norm_num

theorem subdomainScoreZ_nonneg (netloc : List Char) : 0 ≤ URLA.subdomainScoreZ netloc := by
  simp only [URLA.subdomainScoreZ]
  split_ifs <;> norm_num

theorem ipScore_nonneg (netloc : List Char) : 0 ≤ (URLA.checkIpAddress netloc).score := by
  simp only [URLA.checkIpAddress]
  split_ifs <;> norm_num

theorem runChecks_ok_nonneg {url : List Char} {p : URLA.ParsedUrl} {c : URLA.URLChecks}
    (h : URLA.runChecks url p = .ok c) :
    0 ≤ c.structScore ∧ 0 ≤ c.domainScore ∧ 0 ≤ c.tldScore ∧ 0 ≤ c.shortenerScore ∧
    0 ≤ c.keywordScore ∧ 0 ≤ c.patternScore ∧ 0 ≤ c.lengthScore ∧ 0 ≤ c.subdomainScore ∧
    0 ≤ c.ip.score := by
  unfold URLA.runChecks at h
  split at h
  · exact absurd h (by simp)
  · obtain rfl := Except.ok.inj h
    exact ⟨structureScoreZ_nonneg _ _ _, domainScoreZ_nonneg _, tldScoreZ_nonneg _,
      ite_nonneg_int (by norm_num) (by norm_num), keywordScoreZ_nonneg _,
      patternScoreZ_nonneg _, lengthScoreZ_nonneg _, subdomainScoreZ_nonneg _,
      ipScore_nonneg _⟩

theorem calcOverallRisk_le_100 (c : URLA.URLChecks) : URLA.calcOverallRisk c ≤ 100 := by
  simp only [URLA.calcOverallRisk]
  exact min_le_left _ _

theorem calcOverallRisk_nonneg (c : URLA.URLChecks)
    (h1 : 0 ≤ c.structScore) (h2 : 0 ≤ c.domainScore) (h3 : 0 ≤ c.tldScore)
    (h4 : 0 ≤ c.shortenerScore) (h5 : 0 ≤ c.keywordScore) (h6 : 0 ≤ c.patternScore)
    (h7 : 0 ≤ c.lengthScore) (h8 : 0 ≤ c.subdomainScore) (h9 : 0 ≤ c.ip.score) :
    0 ≤ URLA.calcOverallRisk c := by
  have m1 : (0:ℚ) ≤ (c.structScore : ℚ) := by exact_mod_cast h1
  have m2 : (0:ℚ) ≤ (c.domainScore : ℚ) := by exact_mod_cast h2
  have m3 : (0:ℚ) ≤ (c.tldScore : ℚ) := by exact_mod_cast h3
  have m4 : (0:ℚ) ≤ (c.shortenerScore : ℚ) := by exact_mod_cast h4
  have m5 : (0:ℚ) ≤ (c.keywordScore : ℚ) := by exact_mod_cast h5
  have m6 : (0:ℚ) ≤ (c.patternScore : ℚ) := by exact_mod_cast h6
  have m7 : (0:ℚ) ≤ (c.lengthScore : ℚ) := by exact_mod_cast h7
  have m8 : (0:ℚ) ≤ (c.subdomainScore : ℚ) := by exact_mod_cast h8
  have m9 : (0:ℚ) ≤ (c.ip.score : ℚ) := by exact_mod_cast h9
  have htot : (0:ℚ) ≤ (c.structScore : ℚ) * (15 / 100) + (c.domainScore : ℚ) * (15 / 100)
      + (c.tldScore : ℚ) * (10 / 100) + (c.shortenerScore : ℚ) * (10 / 100)
      + (c.keywordScore : ℚ) * (20 / 100) + (c.patternScore : ℚ) * (15 / 100)
      + (c.lengthScore : ℚ) * (5 / 100) + (c.subdomainScore : ℚ) * (3 / 100)
      + (c.ip.score : ℚ) * (2 / 100) := by
    have t1 := mul_nonneg m1 (by norm_num : (0:ℚ) ≤ 15 / 100)
    have t2 := mul_nonneg m2 (by norm_num : (0:ℚ) ≤ 15 / 100)
    have t3 := mul_nonneg m3 (by norm_num : (0:ℚ) ≤ 10 / 100)
    have t4 := mul_nonneg m4 (by norm_num : (0:ℚ) ≤ 10 / 100)
    have t5 := mul_nonneg m5 (by norm_num : (0:ℚ) ≤ 20 / 100)
    have t6 := mul_nonneg m6 (by norm_num : (0:ℚ) ≤ 15 / 100)
    have t7 := mul_nonneg m7 (by norm_num : (0:ℚ) ≤ 5 / 100)
    have t8 := mul_nonneg m8 (by norm_num : (0:ℚ) ≤ 3 / 100)
    have t9 := mul_nonneg m9 (by norm_num : (0:ℚ) ≤ 2 / 100)
    linarith
  simp only [URLA.calcOverallRisk]
  refine le_min (by norm_num) ?_
  split_ifs <;>
    first
      | exact le_trans (by norm_num) (le_max_right _ _)
      | exact le_min (by norm_num) (pyInt_nonneg htot)

theorem analyzeFullRisk_ok_bounds {u : List Char} {er : ℤ}
    (h : URLA.analyzeFullRisk u = .ok er) : 0 ≤ er ∧ er ≤ 100 := by
  unfold URLA.analyzeFullRisk at h
  split at h
  · obtain rfl := Except.ok.inj h
    norm_num
  · split at h
    · exact absurd h (by simp)
    · rename_i p heq
      cases hc : URLA.runChecks u p with
      | error e => rw [hc] at h; exact absurd h (by simp [Except.map])
      | ok c =>
          rw [hc] at h
          simp only [Except.map] at h
          obtain rfl := Except.ok.inj h
          obtain ⟨n1, n2, n3, n4, n5, n6, n7, n8, n9⟩ := runChecks_ok_nonneg hc
          exact ⟨calcOverallRisk_nonneg c n1 n2 n3 n4 n5 n6 n7 n8 n9, calcOverallRisk_le_100 c⟩

theorem expandedRiskOf_ok_bounds {sh b : Bool} {exp : URLA.ExpandOutcome} {er : ℤ}
    (h : URLA.expandedRiskOf sh b exp = .ok er) : 0 ≤ er ∧ er ≤ 100 := by
  unfold URLA.expandedRiskOf at h
  split at h
  · split at h
    · obtain rfl := Except.ok.inj h
      norm_num
    · split at h
      · exact analyzeFullRisk_ok_bounds h
      · obtain rfl := Except.ok.inj h
        norm_num
  · obtain rfl := Except.ok.inj h
    norm_num

theorem combineRisk_bounds {sh : Bool} {base er : ℤ} (hb0 : 0 ≤ base) (hb1 : base ≤ 100)
    (he0 : 0 ≤ er) :
    0 ≤ URLA.combineRisk sh base er ∧ URLA.combineRisk sh base er ≤ 100 := by
  have hmax : 0 ≤ max base er := le_trans hb0 (le_max_left _ _)
  unfold URLA.combineRisk
  split_ifs with h1 h2
  · constructor
    · refine le_min (by norm_num) ?_
      refine le_trans ?_ (le_max_left _ _)
      exact le_min (by norm_num) (by linarith)
    · exact min_le_left _ _
  · constructor
    · exact le_min (by norm_num) (by linarith)
    · exact min_le_left _ _
  · exact ⟨hb0, hb1⟩

theorem analyzeImageQuality_cases (v : ℚ) :
    QRA.analyzeImageQuality v = 40 ∨ QRA.analyzeImageQuality v = 60 ∨
      QRA.analyzeImageQuality v = 85 := by
  simp only [QRA.analyzeImageQuality]
  split_ifs <;> simp

theorem analyzeNoisePatterns_cases (np : ℚ) :
    QRA.analyzeNoisePatterns np = 20 ∨ QRA.analyzeNoisePatterns np = 40 ∨
      QRA.analyzeNoisePatterns np = 80 := by
  simp only [QRA.analyzeNoisePatterns]
  split_ifs <;> simp

theorem analyzeFinderPatterns_cases (a b c : ℚ) :
    QRA.analyzeFinderPatterns a b c = 85 ∨ QRA.analyzeFinderPatterns a b c = 60 ∨
      QRA.analyzeFinderPatterns a b c = 30 := by
  simp only [QRA.analyzeFinderPatterns]
  split_ifs <;> simp

theorem analyzeQrStructure_bounds (cs : List QRA.Contour) :
    0 ≤ QRA.analyzeQrStructure cs ∧ QRA.analyzeQrStructure cs ≤ 100 := by
  simp only [QRA.analyzeQrStructure]
  constructor
  · refine le_min (by norm_num) ?_
    split_ifs
    · positivity
    · norm_num
  · exact min_le_left _ _

theorem quadrantAbsDiffSum_nonneg (g : QRA.GrayRegion) (hm wm r1 c1 r2 c2 : ℕ) :
    0 ≤ QRA.quadrantAbsDiffSum g hm wm r1 c1 r2 c2 := by
  unfold QRA.quadrantAbsDiffSum
  refine Finset.sum_nonneg (fun i _ => Finset.sum_nonneg (fun j _ => abs_nonneg _))

theorem quadrantAbsDiffSum_le (g : QRA.GrayRegion) (hm wm r1 c1 r2 c2 : ℕ) :
    QRA.quadrantAbsDiffSum g hm wm r1 c1 r2 c2 ≤ 255 * (hm * wm) := by
  unfold QRA.quadrantAbsDiffSum
  have hterm : ∀ i j : ℕ,
      |((g.px (r1 + i) (c1 + j)).val : ℤ) - ((g.px (r2 + i) (c2 + j)).val : ℤ)| ≤ 255 := by
    intro i j
    have ha := (g.px (r1 + i) (c1 + j)).isLt
    have hb := (g.px (r2 + i) (c2 + j)).isLt
    rw [abs_le]
    omega
  calc (∑ i ∈ Finset.range hm, ∑ j ∈ Finset.range wm,
        |((g.px (r1 + i) (c1 + j)).val : ℤ) - ((g.px (r2 + i) (c2 + j)).val : ℤ)|)
      ≤ ∑ _i ∈ Finset.range hm, ∑ _j ∈ Finset.range wm, (255 : ℤ) :=
        Finset.sum_le_sum (fun i _ => Finset.sum_le_sum (fun j _ => hterm i j))
    _ = 255 * (hm * wm) := by
        simp [Finset.sum_const, Finset.card_range, mul_comm, mul_assoc, mul_left_comm]

theorem compareRegions_bounds (g : QRA.GrayRegion) (hm wm r1 c1 r2 c2 : ℕ) :
    0 ≤ QRA.compareRegions g hm wm r1 c1 r2 c2 ∧
      QRA.compareRegions g hm wm r1 c1 r2 c2 ≤ 100 := by
  unfold QRA.compareRegions
  split_ifs with h
  · norm_num
  · have hn : (0:ℚ) < ((hm * wm : ℕ) : ℚ) := by
      have := Nat.pos_of_ne_zero h
      exact_mod_cast this
    have hS0 : (0:ℚ) ≤ (QRA.quadrantAbsDiffSum g hm wm r1 c1 r2 c2 : ℚ) := by
      exact_mod_cast quadrantAbsDiffSum_nonneg g hm wm r1 c1 r2 c2
    have hSle : (QRA.quadrantAbsDiffSum g hm wm r1 c1 r2 c2 : ℚ) ≤ 255 * ((hm * wm : ℕ) : ℚ) := by
      have := quadrantAbsDiffSum_le g hm wm r1 c1 r2 c2
      push_cast
      exact_mod_cast this
    have hx0 : 0 ≤ (QRA.quadrantAbsDiffSum g hm wm r1 c1 r2 c2 : ℚ) / ((hm * wm : ℕ) : ℚ) :=
      div_nonneg hS0 (le_of_lt hn)
    have hx1 : (QRA.quadrantAbsDiffSum g hm wm r1 c1 r2 c2 : ℚ) / ((hm * wm : ℕ) : ℚ) ≤ 255 :=
      (div_le_iff hn).mpr (by linarith)
    constructor <;> [skip; skip] <;> linarith

theorem analyzeQrSymmetry_bounds (cs : List QRA.Contour) :
    0 ≤ QRA.analyzeQrSymmetry cs ∧ QRA.analyzeQrSymmetry cs ≤ 100 := by
  unfold QRA.analyzeQrSymmetry
  cases cs with
  | nil => norm_num
  | cons c rest =>
      simp only
      split_ifs with h
      · norm_num
      · obtain ⟨a0, a1⟩ := compareRegions_bounds (QRA.largestContour c rest).region
          ((QRA.largestContour c rest).region.h / 2) ((QRA.largestContour c rest).region.w / 2)
          0 0 0 ((QRA.largestContour c rest).region.w / 2)
        obtain ⟨b0, b1⟩ := compareRegions_bounds (QRA.largestContour c rest).region
          ((QRA.largestContour c rest).region.h / 2) ((QRA.largestContour c rest).region.w / 2)
          0 0 ((QRA.largestContour c rest).region.h / 2) 0
        obtain ⟨d0, d1⟩ := compareRegions_bounds (QRA.largestContour c rest).region
          ((QRA.largestContour c rest).region.h / 2) ((QRA.largestContour c rest).region.w / 2)
          ((QRA.largestContour c rest).region.h / 2) 0
          ((QRA.largestContour c rest).region.h / 2) ((QRA.largestContour c rest).region.w / 2)
        constructor <;> [skip; skip] <;> linarith

theorem calcRiskScore_bounds {q s n sy f : ℚ}
    (hq0 : 0 ≤ q) (hq1 : q ≤ 100) (hs0 : 0 ≤ s) (hs1 : s ≤ 100)
    (hn0 : 0 ≤ n) (hn1 : n ≤ 100) (hy0 : 0 ≤ sy) (hy1 : sy ≤ 100)
    (hf0 : 0 ≤ f) (hf1 : f ≤ 100) :
    0 ≤ QRA.calcRiskScore q s n sy f ∧ QRA.calcRiskScore q s n sy f ≤ 100 := by
  unfold QRA.calcRiskScore
  constructor
  · exact le_min (by norm_num) (by linarith)
  · exact min_le_left _ _

theorem analyzeQrImage_bounds (img : Option QRA.ImageFeatures) :
    0 ≤ (QRA.analyzeQrImage img).risk_score ∧ (QRA.analyzeQrImage img).risk_score ≤ 100 := by
  cases img with
  | none => exact ⟨by norm_num [QRA.analyzeQrImage], by norm_num [QRA.analyzeQrImage]⟩
  | some f =>
      have hq : 0 ≤ QRA.analyzeImageQuality f.lapVar ∧ QRA.analyzeImageQuality f.lapVar ≤ 100 := by
        rcases analyzeImageQuality_cases f.lapVar with h | h | h <;> rw [h] <;> norm_num
      have hn : 0 ≤ QRA.analyzeNoisePatterns f.noisePct ∧
          QRA.analyzeNoisePatterns f.noisePct ≤ 100 := by
        rcases analyzeNoisePatterns_cases f.noisePct with h | h | h <;> rw [h] <;> norm_num
      have hf : 0 ≤ QRA.analyzeFinderPatterns f.m08 f.m10 f.m12 ∧
          QRA.analyzeFinderPatterns f.m08 f.m10 f.m12 ≤ 100 := by
        rcases analyzeFinderPatterns_cases f.m08 f.m10 f.m12 with h | h | h <;> rw [h] <;> norm_num
      obtain ⟨hs0, hs1⟩ := analyzeQrStructure_bounds f.contours
      obtain ⟨hy0, hy1⟩ := analyzeQrSymmetry_bounds f.contours
      obtain ⟨hr0, hr1⟩ := calcRiskScore_bounds hq.1 hq.2 hs0 hs1 hn.1 hn.2 hy0 hy1 hf.1 hf.2
      refine ⟨pyInt_nonneg hr0, pyInt_le_cast hr0 ?_⟩
      exact_mod_cast hr1

theorem bankLookup_risk_bounds {suffix : List Char} {nm : String} {risk : ℤ}
    (h : UPI.bankLookup suffix = some (nm, risk)) : 5 ≤ risk ∧ risk ≤ 25 := by
  unfold UPI.bankLookup at h
  cases hf : UPI.bankTable.find? (fun e => e.1.data == suffix) with
  | none => rw [hf] at h; exact absurd h (by simp)
  | some e =>
      rw [hf] at h
      simp only [Option.map_some', Option.some.injEq, Prod.mk.injEq] at h
      have hrisk : risk = e.2.2 := h.2.symm
      subst hrisk
      have hmem := List.mem_of_find?_eq_some hf
      fin_cases hmem <;> norm_num

/-- C1: every report any of the three analyzers returns carries a
`risk_score` in `[0, 100]`: the UPI validator on both its known-suffix
and unknown-suffix paths, the URL analyzer on its error, plain and
shortened/expanded escalation paths, and the image analyzer on its error
and success paths. -/
theorem claim_C1_risk_score_clamped :
    (∀ s r, UPI.VerifyUPI s = some r → 0 ≤ r.riskscore ∧ r.riskscore ≤ 100) ∧
    (∀ url b exp r, URLA.analyzeUrl url b exp = some r →
        0 ≤ r.risk_score ∧ r.risk_score ≤ 100) ∧
    (∀ img, 0 ≤ (QRA.analyzeQrImage img).risk_score ∧
        (QRA.analyzeQrImage img).risk_score ≤ 100) := by
  refine ⟨?_, ?_, analyzeQrImage_bounds⟩
  · intro s r h
    unfold UPI.VerifyUPI at h
    by_cases hm : UPI.reMatchUpiPattern s = true
    · rw [if_pos hm] at h
      by_cases hat : s.contains '@' = true
      · rw [if_pos hat] at h
        cases hb : UPI.bankLookup (((pySplit '@' s).getLastD []).map Char.toLower) with
        | none =>
            simp only [hb] at h
            obtain rfl := Option.some.inj h
            have h100 : pyInt (((25 : ℚ) - 5) / (25 - 5) * 100) = 100 := by
              rw [pyInt_eq_floor (by norm_num)]
              norm_num
            constructor
            · show 0 ≤ pyInt (((25 : ℚ) - 5) / (25 - 5) * 100)
              rw [h100]; norm_num
            · show pyInt (((25 : ℚ) - 5) / (25 - 5) * 100) ≤ 100
              rw [h100]
        | some e =>
            obtain ⟨bankName, risk⟩ := e
            simp only [hb] at h
            obtain ⟨hr5, hr25⟩ := bankLookup_risk_bounds hb
            obtain rfl := Option.some.inj h
            have key : (((0 + risk : ℤ) : ℚ) - 5) / (25 - 5) * 100 = ((risk : ℚ) - 5) * 5 := by
              push_cast
              ring
            have c5 : (5:ℚ) ≤ (risk : ℚ) := by exact_mod_cast hr5
            have c25 : (risk : ℚ) ≤ 25 := by exact_mod_cast hr25
            constructor
            · apply pyInt_nonneg
              rw [key]
              linarith
            · apply pyInt_le_cast
              · rw [key]; linarith
              · rw [key]
                push_cast
                linarith
      · rw [if_neg hat] at h
        exact absurd h (by simp)
    · rw [if_neg hm] at h
      exact absurd h (by simp)
  · intro url b exp r h
    unfold URLA.analyzeUrl at h
    cases hparse : URLA.pyUrlParse url with
    | error e =>
        simp only [hparse] at h
        obtain rfl := Option.some.inj h
        exact ⟨by decide, by decide⟩
    | ok p =>
        simp only [hparse] at h
        by_cases hv : (p.scheme.isEmpty || p.netloc.isEmpty) = true
        · rw [if_pos hv] at h
          obtain rfl := Option.some.inj h
          exact ⟨by decide, by decide⟩
        · rw [if_neg hv] at h
          cases hx : URLA.expandedRiskOf (URLA.isShortenedNetloc p.netloc) b exp with
          | error e =>
              simp only [hx] at h
              exact absurd h (by simp)
          | ok er =>
              simp only [hx] at h
              cases hc : URLA.runChecks url p with
              | error e =>
                  simp only [hc] at h
                  exact absurd h (by simp)
              | ok c =>
                  simp only [hc] at h
                  obtain rfl := Option.some.inj h
                  obtain ⟨n1, n2, n3, n4, n5, n6, n7, n8, n9⟩ := runChecks_ok_nonneg hc
                  obtain ⟨e0, _e1⟩ := expandedRiskOf_ok_bounds hx
                  exact combineRisk_bounds
                    (calcOverallRisk_nonneg c n1 n2 n3 n4 n5 n6 n7 n8 n9)
                    (calcOverallRisk_le_100 c) e0

/-- C1 witness: the clamp at concrete inputs — the known-suffix UPI
report for `"ab@oksbi"`, the fail-closed URL report for `"notvalid"`,
and the image-analyzer error report. -/
theorem claim_C1_risk_score_clamped_witness :
    (0 ≤ (⟨"Success", "ab@oksbi".data, "Google Pay – SBI", 25, "Low"⟩ : UPI.UPIReport).riskscore ∧
      (⟨"Success", "ab@oksbi".data, "Google Pay – SBI", 25, "Low"⟩ : UPI.UPIReport).riskscore ≤ 100) ∧
    (0 ≤ URLA.errorReport.risk_score ∧ URLA.errorReport.risk_score ≤ 100) ∧
    (0 ≤ (QRA.analyzeQrImage none).risk_score ∧ (QRA.analyzeQrImage none).risk_score ≤ 100) :=
  ⟨claim_C1_risk_score_clamped.1 "ab@oksbi".data _ claim_C3_oksbi_amended.2.2,
   claim_C1_risk_score_clamped.2.1 "notvalid".data true (.fail "") URLA.errorReport (by decide),
   claim_C1_risk_score_clamped.2.2 none⟩

/-- C8: the post-weighting escalation floors of
`_calculate_overall_risk` — private IP with any suspicious-pattern hit
forces at least 65, a private IP alone at least 40, non-HTTPS with
pattern score at least 15 forces at least 55 — and analyzing
`http://192.168.1.1:8080/login.php` (private IP, `login`/`.php` hits,
weighted sum only 15) escalates to exactly 65, risk level `High`. -/
theorem claim_C8_escalation_floors :
    (∀ c : URLA.URLChecks, c.ip.is_private_ip = true → 0 < c.patternScore →
        65 ≤ URLA.calcOverallRisk c) ∧
    (∀ c : URLA.URLChecks, c.ip.is_private_ip = true → 40 ≤ URLA.calcOverallRisk c) ∧
    (∀ c : URLA.URLChecks, c.isHttps = false → 15 ≤ c.patternScore →
        55 ≤ URLA.calcOverallRisk c) ∧
    URLA.analyzeUrl "http://192.168.1.1:8080/login.php".data true (.fail "") =
      some { status := "success", is_shortened := false, is_valid := true
           , risk_score := 65, risk_level := "High", checks := some loginPhpChecks } := by
  refine ⟨?_, ?_, ?_, ?_⟩
  · intro c hpriv hpat
    simp only [URLA.calcOverallRisk]
    rw [if_pos hpriv, if_pos hpat]
    refine le_min (by norm_num) ?_
    split_ifs <;> simp [le_max_iff]
  · intro c hpriv
    simp only [URLA.calcOverallRisk]
    rw [if_pos hpriv]
    refine le_min (by norm_num) ?_
    split_ifs <;> simp [le_max_iff]
  · intro c hh hp
    simp only [URLA.calcOverallRisk]
    rw [if_pos ⟨hh, hp⟩]
    refine le_min (by norm_num) ?_
    split_ifs <;> simp [le_max_iff]
  · have hrisk : URLA.calcOverallRisk loginPhpChecks = 65 := by
      simp only [URLA.calcOverallRisk, loginPhpChecks]
      norm_num [pyInt_eq_floor, min_def, max_def]
    have hparse : URLA.pyUrlParse "http://192.168.1.1:8080/login.php".data =
        .ok ⟨"http".data, "192.168.1.1:8080".data⟩ := by decide
    have hchecks : URLA.runChecks "http://192.168.1.1:8080/login.php".data
        ⟨"http".data, "192.168.1.1:8080".data⟩ = .ok loginPhpChecks := by decide
    have hshort : URLA.isShortenedNetloc "192.168.1.1:8080".data = false := by decide
    have hex : URLA.expandedRiskOf (URLA.isShortenedNetloc "192.168.1.1:8080".data) true
        (.fail "") = .ok 0 := by decide
    unfold URLA.analyzeUrl
    simp only [hparse]
    rw [if_neg (by decide)]
    simp only [hex, hchecks]
    simp only [URLA.successReport, URLA.combineRisk, hshort, hrisk]
    norm_num [URLA.urlRiskLevel]

/-- C8 witness: the three floors instantiated at the check results of
the `login.php` URL itself. -/
theorem claim_C8_escalation_floors_witness :
    65 ≤ URLA.calcOverallRisk loginPhpChecks ∧
    40 ≤ URLA.calcOverallRisk loginPhpChecks ∧
    55 ≤ URLA.calcOverallRisk loginPhpChecks :=
  ⟨claim_C8_escalation_floors.1 loginPhpChecks (by decide) (by decide),
   claim_C8_escalation_floors.2.1 loginPhpChecks (by decide),
   claim_C8_escalation_floors.2.2.1 loginPhpChecks (by decide) (by decide)⟩

theorem combineRisk_lower (base er : ℤ) :
    base + 40 ≤ URLA.combineRisk true base er ∨ URLA.combineRisk true base er = 100 := by
  have hmax : base ≤ max base er := le_max_left base er
  simp only [URLA.combineRisk, if_true]
  by_cases h50 : 50 < er
  · rw [if_pos h50]
    by_cases hf : max base er + 40 ≤ 100
    · rw [min_eq_right hf]
      rcases le_or_lt 100 (max (max base er + 40) (Int.fdiv (base + er) 2 + 35)) with hge | hlt
      · exact Or.inr (min_eq_left hge)
      · refine Or.inl ?_
        rw [min_eq_right (le_of_lt hlt)]
        exact le_trans (by linarith) (le_max_left _ _)
    · have hfe : min 100 (max base er + 40) = 100 := min_eq_left (by linarith)
      rw [hfe]
      exact Or.inr (min_eq_left (le_max_left _ _))
  · rw [if_neg h50]
    by_cases hf : max base er + 40 ≤ 100
    · rw [min_eq_right hf]
      exact Or.inl (by linarith)
    · have hfe : min 100 (max base er + 40) = 100 := min_eq_left (by linarith)
      rw [hfe]
      exact Or.inr rfl

/-- C7: for a shortened URL with `expand_shortened=true` whose expansion
succeeds (a truthy, valid destination whose own analysis returns risk
`er`), the final risk equals `min(100, max(base, er) + 40)`, further
raised to `min(100, max(final, (base + er) // 2 + 35))` when `er > 50`;
consequently the final risk is at least `base + 40` unless it is clamped
at 100. -/
theorem claim_C7_shortened_escalation
    (url e : List Char) (p : URLA.ParsedUrl) (c : URLA.URLChecks) (er : ℤ) (r : URLA.URLReport)
    (hparse : URLA.pyUrlParse url = .ok p)
    (hvalid : URLA.isValidUrl url = true)
    (hshort : URLA.isShortenedNetloc p.netloc = true)
    (hne : e ≠ [])
    (hev : URLA.isValidUrl e = true)
    (hfull : URLA.analyzeFullRisk e = .ok er)
    (hchecks : URLA.runChecks url p = .ok c)
    (hr : URLA.analyzeUrl url true (.ok e) = some r) :
    r.risk_score =
      (if 50 < er then
        min 100 (max (min 100 (max (URLA.calcOverallRisk c) er + 40))
          (Int.fdiv (URLA.calcOverallRisk c + er) 2 + 35))
       else min 100 (max (URLA.calcOverallRisk c) er + 40)) ∧
    (URLA.calcOverallRisk c + 40 ≤ r.risk_score ∨ r.risk_score = 100) := by
  have hvb : (p.scheme.isEmpty || p.netloc.isEmpty) = false := by
    simp only [URLA.isValidUrl, hparse] at hvalid
    simp only [Bool.and_eq_true, Bool.not_eq_true'] at hvalid
    simp [hvalid.1, hvalid.2]
  have hee : e.isEmpty = false := by
    cases e
    · exact absurd rfl hne
    · rfl
  have hex : URLA.expandedRiskOf (URLA.isShortenedNetloc p.netloc) true (.ok e) = .ok er := by
    unfold URLA.expandedRiskOf
    rw [hshort]
    simp [hee, hev, hfull]
  unfold URLA.analyzeUrl at hr
  simp only [hparse] at hr
  rw [if_neg (by simp [hvb])] at hr
  simp only [hex, hchecks] at hr
  obtain rfl := Option.some.inj hr
  constructor
  · simp only [URLA.successReport, hshort]
    simp [URLA.combineRisk]
  · simp only [URLA.successReport, hshort]
    exact combineRisk_lower (URLA.calcOverallRisk c) er

theorem exampleCom_fullRisk_eval :
    URLA.analyzeFullRisk "https://example.com/a".data = .ok 0 := by
  have hrisk : URLA.calcOverallRisk exampleComChecks = 0 := by
    simp only [URLA.calcOverallRisk, exampleComChecks]
    norm_num [pyInt_eq_floor, min_def, max_def]
  have hparse : URLA.pyUrlParse "https://example.com/a".data =
      .ok ⟨"https".data, "example.com".data⟩ := by decide
  have hchecks : URLA.runChecks "https://example.com/a".data
      ⟨"https".data, "example.com".data⟩ = .ok exampleComChecks := by decide
  unfold URLA.analyzeFullRisk
  rw [if_neg (by decide)]
  simp only [hparse, hchecks, Except.map]
  rw [hrisk]

theorem bitly_analyzeUrl_eval :
    URLA.analyzeUrl "https://bit.ly/abc123".data true (.ok "https://example.com/a".data) =
      some ⟨"success", true, true, 42, "Medium", some bitlyChecks⟩ := by
  have hrisk : URLA.calcOverallRisk bitlyChecks = 2 := by
    simp only [URLA.calcOverallRisk, bitlyChecks]
    norm_num [pyInt_eq_floor, min_def, max_def]
  have hparse : URLA.pyUrlParse "https://bit.ly/abc123".data =
      .ok ⟨"https".data, "bit.ly".data⟩ := by decide
  have hchecks : URLA.runChecks "https://bit.ly/abc123".data
      ⟨"https".data, "bit.ly".data⟩ = .ok bitlyChecks := by decide
  have hex : URLA.expandedRiskOf (URLA.isShortenedNetloc "bit.ly".data) true
      (.ok "https://example.com/a".data) = .ok 0 := by
    unfold URLA.expandedRiskOf
    rw [show URLA.isShortenedNetloc "bit.ly".data = true from by decide]
    simp only [Bool.and_self, if_true,
      show URLA.isValidUrl "https://example.com/a".data = true from by decide]
    rw [if_pos (by decide)]
    exact exampleCom_fullRisk_eval
  unfold URLA.analyzeUrl
  simp only [hparse]
  rw [if_neg (by decide)]
  simp only [hex, hchecks]
  simp only [URLA.successReport, hrisk,
    show URLA.isShortenedNetloc "bit.ly".data = true from by decide]
  norm_num [URLA.combineRisk, URLA.urlRiskLevel, min_def, max_def]

/-- C7 witness: `https://bit.ly/abc123` expanding to
`https://example.com/a` — base risk 2, expanded risk 0, final risk
`min(100, max(2,0) + 40) = 42 ≥ 2 + 40`. -/
theorem claim_C7_shortened_escalation_witness :
    ((⟨"success", true, true, 42, "Medium", some bitlyChecks⟩ : URLA.URLReport).risk_score =
      (if (50:ℤ) < 0 then
        min 100 (max (min 100 (max (URLA.calcOverallRisk bitlyChecks) 0 + 40))
          (Int.fdiv (URLA.calcOverallRisk bitlyChecks + 0) 2 + 35))
       else min 100 (max (URLA.calcOverallRisk bitlyChecks) 0 + 40))) ∧
    (URLA.calcOverallRisk bitlyChecks + 40 ≤
        (⟨"success", true, true, 42, "Medium", some bitlyChecks⟩ : URLA.URLReport).risk_score ∨
      (⟨"success", true, true, 42, "Medium", some bitlyChecks⟩ : URLA.URLReport).risk_score = 100) :=
  claim_C7_shortened_escalation "https://bit.ly/abc123".data "https://example.com/a".data
    ⟨"https".data, "bit.ly".data⟩ bitlyChecks 0
    ⟨"success", true, true, 42, "Medium", some bitlyChecks⟩
    (by decide) (by decide) (by decide) (by decide) (by decide)
    exampleCom_fullRisk_eval (by decide) bitly_analyzeUrl_eval

/-- C10: the two shortener tests disagree on subdomains.
`is_shortened_url` accepts a host that ends with `'.' + shortener`
(subdomain match), while `_check_url_shortener` requires exact set
membership; so a proper subdomain of a shortener sets
`is_shortened=true` (triggering the +40 escalation) while the
`shortener_check` sub-score stays 0. -/
theorem claim_C10_shortener_match_mismatch
    (url : List Char) (p : URLA.ParsedUrl)
    (hparse : URLA.pyUrlParse url = .ok p)
    (hnotexact : URLA.isShortenerExact p.netloc = false)
    (hsub : URLA.urlShorteners.any
        (fun s => endsWithL (p.netloc.map Char.toLower) ('.' :: s.data)) = true) :
    URLA.isShortenedNetloc p.netloc = true ∧
    (∀ c, URLA.runChecks url p = .ok c →
        c.shortenerScore = 0 ∧ c.shortenerIsShortener = false) ∧
    (∀ b exp r, URLA.analyzeUrl url b exp = some r → r.is_valid = true →
        r.is_shortened = true) := by
  have hshort : URLA.isShortenedNetloc p.netloc = true := by
    obtain ⟨s, hmem, hends⟩ := List.any_eq_true.mp hsub
    unfold URLA.isShortenedNetloc
    refine Bool.or_eq_true_iff.mpr (Or.inr ?_)
    exact List.any_eq_true.mpr ⟨s, hmem, by simp [hends]⟩
  refine ⟨hshort, ?_, ?_⟩
  · intro c h
    unfold URLA.runChecks at h
    split at h
    · exact absurd h (by simp)
    · obtain rfl := Except.ok.inj h
      exact ⟨by simp [hnotexact], hnotexact⟩
  · intro b exp r h hval
    unfold URLA.analyzeUrl at h
    simp only [hparse] at h
    split at h
    · obtain rfl := Option.some.inj h
      exact absurd hval (by decide)
    · split at h
      · exact absurd h (by simp)
      · split at h
        · exact absurd h (by simp)
        · obtain rfl := Option.some.inj h
          simpa [URLA.successReport] using hshort

theorem xbitly_analyzeUrl_eval :
    URLA.analyzeUrl "https://x.bit.ly/abc".data true (.fail "e") =
      some ⟨"success", true, true, 40, "Medium", some xbitlyChecks⟩ := by
  have hrisk : URLA.calcOverallRisk xbitlyChecks = 0 := by
    simp only [URLA.calcOverallRisk, xbitlyChecks]
    norm_num [pyInt_eq_floor, min_def, max_def]
  have hparse : URLA.pyUrlParse "https://x.bit.ly/abc".data =
      .ok ⟨"https".data, "x.bit.ly".data⟩ := by decide
  have hchecks : URLA.runChecks "https://x.bit.ly/abc".data
      ⟨"https".data, "x.bit.ly".data⟩ = .ok xbitlyChecks := by decide
  have hex : URLA.expandedRiskOf (URLA.isShortenedNetloc "x.bit.ly".data) true
      (.fail "e") = .ok 0 := by decide
  unfold URLA.analyzeUrl
  simp only [hparse]
  rw [if_neg (by decide)]
  simp only [hex, hchecks]
  simp only [URLA.successReport, hrisk,
    show URLA.isShortenedNetloc "x.bit.ly".data = true from by decide]
  norm_num [URLA.combineRisk, URLA.urlRiskLevel, min_def, max_def]

/-- C10 witness: `https://x.bit.ly/abc` — host `x.bit.ly` is a proper
subdomain of `bit.ly`, is flagged shortened (final risk 40 from the +40
escalation over a base of 0), yet its `shortener_check` score is 0. -/
theorem claim_C10_shortener_match_mismatch_witness :
    URLA.isShortenedNetloc "x.bit.ly".data = true ∧
    (xbitlyChecks.shortenerScore = 0 ∧ xbitlyChecks.shortenerIsShortener = false) ∧
    (⟨"success", true, true, 40, "Medium", some xbitlyChecks⟩ : URLA.URLReport).is_shortened
      = true :=
  ⟨(claim_C10_shortener_match_mismatch "https://x.bit.ly/abc".data
      ⟨"https".data, "x.bit.ly".data⟩ (by decide) (by decide) (by decide)).1,
   (claim_C10_shortener_match_mismatch "https://x.bit.ly/abc".data
      ⟨"https".data, "x.bit.ly".data⟩ (by decide) (by decide) (by decide)).2.1
     xbitlyChecks (by decide),
   (claim_C10_shortener_match_mismatch "https://x.bit.ly/abc".data
      ⟨"https".data, "x.bit.ly".data⟩ (by decide) (by decide) (by decide)).2.2
     true (.fail "e") ⟨"success", true, true, 40, "Medium", some xbitlyChecks⟩
     xbitly_analyzeUrl_eval (by decide)⟩

/-- C6: the claimed routing rule — type `upi` iff exactly one `'@'` and
a full regex match — fails: `"x@@y"` has two `'@'` symbols and does not
match the regex, so the claim sends it through the URL rule to `text`,
but the classifier types it `upi`, because a payload containing `'@'`
that fails `CheckInvalidUPIPattern` is routed to the synthesized
Invalid UPI report before the regex is consulted. -/
theorem claim_C6_counterexample :
    ("x@@y".data).count '@' = 2 ∧
    UPI.reMatchUpiPattern "x@@y".data = false ∧
    (Classify.analyzeQrContent "x@@y".data).map Classify.ContentResult.ctype = some "upi" := by
  refine ⟨by decide, by decide, by decide⟩

/-- C6 (amended): for every nonempty payload whose stripped form does
not start with `upi://`, the classifier assigns type `upi` iff the
stripped payload contains an `'@'` and either fails
`CheckInvalidUPIPattern` or matches the UPI regex; a payload failing
this falls through to the URL rule (protocol prefix, or a dot with no
space) and otherwise to type `text`. -/
theorem claim_C6_routing_amended (content : List Char)
    (hne : content ≠ [])
    (hup : startsWithL (pyStrip content) "upi://".data = false) :
    (((Classify.analyzeQrContent content).map Classify.ContentResult.ctype = some "upi") ↔
        upiRouted (pyStrip content)) ∧
    (((Classify.analyzeQrContent content).map Classify.ContentResult.ctype = some "url") ↔
        (¬upiRouted (pyStrip content) ∧ urlRouted (pyStrip content))) ∧
    (((Classify.analyzeQrContent content).map Classify.ContentResult.ctype = some "text") ↔
        (¬upiRouted (pyStrip content) ∧ ¬urlRouted (pyStrip content))) := by
  have hc : content.isEmpty = false := by
    cases content
    · exact absurd rfl hne
    · rfl
  unfold Classify.analyzeQrContent
  simp only [hc, Bool.false_eq_true, if_false, hup]
  by_cases hat : (pyStrip content).contains '@' = true
  · have hmem : '@' ∈ pyStrip content := mem_of_contains hat
    rw [if_pos hat]
    by_cases hinv : (UPI.CheckInvalidUPIPattern (pyStrip content)).is_valid = false
    · rw [if_pos (by simp [hinv])]
      refine ⟨?_, ?_, ?_⟩ <;> simp [upiRouted, hmem, hinv]
    · have hval : (UPI.CheckInvalidUPIPattern (pyStrip content)).is_valid = true := by
        simpa using hinv
      rw [if_neg (by simp [hval])]
      by_cases hre : UPI.reMatchUpiPattern (pyStrip content) = true
      · rw [if_pos hre]
        refine ⟨?_, ?_, ?_⟩ <;> simp [upiRouted, hmem, hval, hre]
      · rw [if_neg hre]
        have hreF : UPI.reMatchUpiPattern (pyStrip content) = false := by
          simpa using hre
        unfold Classify.urlOrText
        by_cases hurl : (Classify.protocolStarts.any
              (fun p => startsWithL (pyStrip content) p.data)
            || ((pyStrip content).contains '.' && !((pyStrip content).contains ' '))) = true
        · rw [if_pos hurl]
          simp only [Bool.or_eq_true, Bool.and_eq_true, Bool.not_eq_true'] at hurl
          have hurlP : urlRouted (pyStrip content) := hurl
          refine ⟨?_, ?_, ?_⟩ <;> simp [upiRouted, hmem, hval, hreF, hurlP]
        · rw [if_neg hurl]
          have hurlN : ¬ urlRouted (pyStrip content) := fun h => hurl (by
            simp only [Bool.or_eq_true, Bool.and_eq_true, Bool.not_eq_true']
            exact h)
          refine ⟨?_, ?_, ?_⟩ <;> simp [upiRouted, hmem, hval, hreF, hurlN]
  · rw [if_neg hat]
    have hnmem : '@' ∉ pyStrip content := fun hm => hat (contains_of_mem hm)
    unfold Classify.urlOrText
    by_cases hurl : (Classify.protocolStarts.any
          (fun p => startsWithL (pyStrip content) p.data)
        || ((pyStrip content).contains '.' && !((pyStrip content).contains ' '))) = true
    · rw [if_pos hurl]
      simp only [Bool.or_eq_true, Bool.and_eq_true, Bool.not_eq_true'] at hurl
      have hurlP : urlRouted (pyStrip content) := hurl
      refine ⟨?_, ?_, ?_⟩ <;> simp [upiRouted, hnmem, hurlP]
    · rw [if_neg hurl]
      have hurlN : ¬ urlRouted (pyStrip content) := fun h => hurl (by
        simp only [Bool.or_eq_true, Bool.and_eq_true, Bool.not_eq_true']
        exact h)
      refine ⟨?_, ?_, ?_⟩ <;> simp [upiRouted, hnmem, hurlN]

/-- C6 witness: the routing equivalences at the concrete payload
`"ab@oksbi"`, which is typed `upi`. -/
theorem claim_C6_routing_amended_witness :
    (((Classify.analyzeQrContent "ab@oksbi".data).map Classify.ContentResult.ctype
        = some "upi") ↔ upiRouted (pyStrip "ab@oksbi".data)) ∧
    (((Classify.analyzeQrContent "ab@oksbi".data).map Classify.ContentResult.ctype
        = some "url") ↔
        (¬upiRouted (pyStrip "ab@oksbi".data) ∧ urlRouted (pyStrip "ab@oksbi".data))) ∧
    (((Classify.analyzeQrContent "ab@oksbi".data).map Classify.ContentResult.ctype
        = some "text") ↔
        (¬upiRouted (pyStrip "ab@oksbi".data) ∧ ¬urlRouted (pyStrip "ab@oksbi".data))) :=
  claim_C6_routing_amended "ab@oksbi".data (by decide) (by decide)

theorem cb_qads_tr : QRA.quadrantAbsDiffSum cbRegion 5 5 0 0 0 5 = 5725 := by decide

theorem cb_qads_bl : QRA.quadrantAbsDiffSum cbRegion 5 5 0 0 5 0 = 5725 := by decide

theorem cb_qads_br : QRA.quadrantAbsDiffSum cbRegion 5 5 5 0 5 5 = 5725 := by decide

theorem cb_compare_tr : QRA.compareRegions cbRegion 5 5 0 0 0 5 = 520 / 51 := by
  simp only [QRA.compareRegions, cb_qads_tr]
  norm_num

theorem cb_compare_bl : QRA.compareRegions cbRegion 5 5 0 0 5 0 = 520 / 51 := by
  simp only [QRA.compareRegions, cb_qads_bl]
  norm_num

theorem cb_compare_br : QRA.compareRegions cbRegion 5 5 5 0 5 5 = 520 / 51 := by
  simp only [QRA.compareRegions, cb_qads_br]
  norm_num

theorem largest_lowSym :
    QRA.largestContour sqContour (List.replicate 19 otherContour) = sqContour := by
  have key : ∀ n : ℕ,
      QRA.largestContour sqContour (List.replicate n otherContour) = sqContour := by
    intro n
    induction n with
    | zero => rfl
    | succ k ih =>
        simp only [List.replicate_succ, QRA.largestContour, List.foldl_cons] at *
        rw [if_neg (by norm_num [sqContour, otherContour])]
        exact ih
  exact key 19

theorem lowSym_structure : QRA.analyzeQrStructure lowSymFeatures.contours = 5 := by
  have hlen :
      ((sqContour :: List.replicate 19 otherContour).filter QRA.isSquareish).length = 1 := by
    decide
  have htot : (sqContour :: List.replicate 19 otherContour).length = 20 := by decide
  simp only [QRA.analyzeQrStructure, lowSymFeatures, hlen, htot]
  norm_num [min_def]

theorem lowSym_symmetry : QRA.analyzeQrSymmetry lowSymFeatures.contours = 520 / 51 := by
  have hh : cbRegion.h = 10 := rfl
  have hw : cbRegion.w = 10 := rfl
  simp only [lowSymFeatures, QRA.analyzeQrSymmetry, largest_lowSym]
  simp only [sqContour]
  rw [if_neg (by rw [hh, hw]; norm_num)]
  rw [hh, hw]
  norm_num [cb_compare_tr, cb_compare_bl, cb_compare_br]

theorem uniform_risk_eval :
    (QRA.analyzeQrImage (some uniformGrayFeatures)).risk_score = 44 := by
  simp only [QRA.analyzeQrImage, uniformGrayFeatures, QRA.analyzeImageQuality,
    QRA.analyzeQrStructure, QRA.analyzeNoisePatterns, QRA.analyzeQrSymmetry,
    QRA.analyzeFinderPatterns, QRA.calcRiskScore]
  norm_num [pyInt_eq_floor, min_def]

theorem lowSym_risk_eval :
    (QRA.analyzeQrImage (some lowSymFeatures)).risk_score = 46 := by
  simp only [QRA.analyzeQrImage]
  rw [lowSym_structure, lowSym_symmetry]
  simp only [lowSymFeatures, QRA.analyzeImageQuality, QRA.analyzeNoisePatterns,
    QRA.analyzeFinderPatterns, QRA.calcRiskScore]
  norm_num [pyInt_eq_floor, min_def]

/-- C9: the no-contour image does score structure 0 and symmetry 30,
but its weighted risk is NOT always higher than that of an image with
nonzero structure and symmetry sub-scores and the other three
sub-scores equal: against `lowSymFeatures` (structure 5, symmetry
520/51, quality/noise/finder identical) the no-contour image scores 44
while the nonzero-scoring image scores 46.  The claimed inequality
holds only when the other image's structure and symmetry sum to more
than 30. -/
theorem claim_C9_counterexample :
    uniformGrayFeatures.contours = [] ∧
    QRA.analyzeQrStructure uniformGrayFeatures.contours = 0 ∧
    QRA.analyzeQrSymmetry uniformGrayFeatures.contours = 30 ∧
    QRA.analyzeQrStructure lowSymFeatures.contours ≠ 0 ∧
    QRA.analyzeQrSymmetry lowSymFeatures.contours ≠ 0 ∧
    QRA.analyzeImageQuality lowSymFeatures.lapVar
      = QRA.analyzeImageQuality uniformGrayFeatures.lapVar ∧
    QRA.analyzeNoisePatterns lowSymFeatures.noisePct
      = QRA.analyzeNoisePatterns uniformGrayFeatures.noisePct ∧
    QRA.analyzeFinderPatterns lowSymFeatures.m08 lowSymFeatures.m10 lowSymFeatures.m12
      = QRA.analyzeFinderPatterns uniformGrayFeatures.m08 uniformGrayFeatures.m10
          uniformGrayFeatures.m12 ∧
    (QRA.analyzeQrImage (some uniformGrayFeatures)).risk_score
      < (QRA.analyzeQrImage (some lowSymFeatures)).risk_score := by
  refine ⟨rfl, ?_, rfl, ?_, ?_, rfl, rfl, rfl, ?_⟩
  · simp only [uniformGrayFeatures, QRA.analyzeQrStructure]
    norm_num [min_def]
  · rw [lowSym_structure]; norm_num
  · rw [lowSym_symmetry]; norm_num
  · rw [uniform_risk_eval, lowSym_risk_eval]; norm_num

/-- C9 (amended): an image with no contours scores structure 0 and
symmetry 30 (and the analysis details record exactly those values), and
its weighted risk exceeds that of an image with equal quality, noise
and finder sub-scores whenever that image's structure and symmetry
sub-scores sum to MORE THAN 30 (quality, noise and finder quantize to
at least 40, 20 and 30, so the clamp at 100 never interferes). -/
theorem claim_C9_no_contour_comparison_amended :
    (∀ f : QRA.ImageFeatures, f.contours = [] →
      QRA.analyzeQrStructure f.contours = 0 ∧
      QRA.analyzeQrSymmetry f.contours = 30 ∧
      (QRA.analyzeQrImage (some f)).details =
        some ⟨QRA.analyzeImageQuality f.lapVar, 0, QRA.analyzeNoisePatterns f.noisePct,
          30, QRA.analyzeFinderPatterns f.m08 f.m10 f.m12⟩) ∧
    (∀ q n fp s sy : ℚ, 40 ≤ q → 20 ≤ n → 30 ≤ fp → 30 < s + sy →
      QRA.calcRiskScore q s n sy fp < QRA.calcRiskScore q 0 n 30 fp) := by
  constructor
  · intro f hf
    have hs : QRA.analyzeQrStructure f.contours = 0 := by
      rw [hf]
      simp only [QRA.analyzeQrStructure]
      norm_num [min_def]
    have hsy : QRA.analyzeQrSymmetry f.contours = 30 := by
      rw [hf]
      rfl
    refine ⟨hs, hsy, ?_⟩
    simp only [QRA.analyzeQrImage, hs, hsy]
  · intro q n fp s sy hq hn hf hssy
    unfold QRA.calcRiskScore
    have hA : (100 - q) * (25 / 100) + (100 - (0 : ℚ)) * (20 / 100) + (100 - n) * (20 / 100)
        + (100 - (30 : ℚ)) * (20 / 100) + (100 - fp) * (15 / 100) ≤ 100 := by linarith
    rw [min_eq_right hA]
    refine lt_of_le_of_lt (min_le_right _ _) ?_
    linarith

/-- C9 witness: the amended theorem instantiated at the uniform-gray
features (part one) and at sub-scores `q=40, s=31, n=20, sy=0, f=30`
(part two), where the structure-plus-symmetry sum 31 exceeds 30. -/
theorem claim_C9_no_contour_comparison_amended_witness :
    (QRA.analyzeQrStructure uniformGrayFeatures.contours = 0 ∧
     QRA.analyzeQrSymmetry uniformGrayFeatures.contours = 30 ∧
     (QRA.analyzeQrImage (some uniformGrayFeatures)).details =
        some ⟨QRA.analyzeImageQuality uniformGrayFeatures.lapVar, 0,
          QRA.analyzeNoisePatterns uniformGrayFeatures.noisePct, 30,
          QRA.analyzeFinderPatterns uniformGrayFeatures.m08 uniformGrayFeatures.m10
            uniformGrayFeatures.m12⟩) ∧
    ((40 : ℚ) ≤ 40 ∧ (20 : ℚ) ≤ 20 ∧ (30 : ℚ) ≤ 30 ∧ (30 : ℚ) < 31 + 0 ∧
      QRA.calcRiskScore 40 31 20 0 30 < QRA.calcRiskScore 40 0 20 30 30) :=
  ⟨claim_C9_no_contour_comparison_amended.1 uniformGrayFeatures rfl,
   by norm_num, by norm_num, by norm_num, by norm_num,
   claim_C9_no_contour_comparison_amended.2 40 20 30 31 0 (by norm_num) (by norm_num)
     (by norm_num) (by norm_num)⟩
